import Mathlib

/-!
Verification of the things-mcp server's payload-construction logic.

The TypeScript source (src/index.ts) is shallowly embedded below:
pure payload builders become Lean functions, the mutable accumulator
state of `buildRestructurePayload` becomes an explicit `RState` record
threaded through a fold, and JavaScript truthiness tests on optional
string / array fields are made explicit (`optStrTruthy`, emptiness
guards).  Platform primitives that the repository only calls
(`randomUUID`, `URLSearchParams`, `JSON.stringify`, `process.env`) are
modelled from the spec where noted.
-/

namespace ThingsMCP

/-- JavaScript truthiness of an optional string value: `undefined` and
the empty string are falsy, every other string truthy. -/
def optStrTruthy (s : Option String) : Bool :=
  s.getD "" ≠ ""

/-- Keep an optional string only when it is truthy (mirrors patterns
like `if (x.notes) attrs.notes = x.notes`). -/
def truthyKeep (s : Option String) : Option String :=
  if optStrTruthy s then s else none

lemma some_getD_of_truthy (v : Option String) (h : optStrTruthy v = true) :
    some (v.getD "") = v := by
  cases v with
  | none => simp [optStrTruthy] at h
  | some s => rfl

/-- JavaScript truthiness of `xs?.length` for an optional array. -/
def optListTruthy (l : Option (List String)) : Bool :=
  l.getD [] ≠ []

/-- `b.toString()` for a JavaScript boolean. -/
def boolString (b : Bool) : String :=
  if b then "true" else "false"

/-! ## Restructure layout input (zod `RestructureLayoutItemSchema`) -/

/-- The `operation` enum of `RestructureHeadingSchema`. -/
inductive HOp where
  | create
  | update
  | move
  | delete
deriving DecidableEq, Repr

/-- A heading block of the restructure layout
(`RestructureHeadingSchema`): all fields but `type` are optional. -/
structure RHeading where
  id : Option String := none
  title : Option String := none
  operation : Option HOp := none
  index : Option Nat := none
  items : Option (List String) := none
deriving DecidableEq, Repr

/-- One block of the restructure layout
(`RestructureLayoutItemSchema`): a heading or an unsectioned items
block. -/
inductive RestructureLayoutItem where
  | heading (h : RHeading)
  | unsectioned (items : Option (List String))
deriving DecidableEq, Repr

/-! ## Restructure output operations -/

/-- Attributes of a non-delete heading operation: `project-id` is
always set, `title` only when truthy, `index` always. -/
structure HeadingAttrs where
  projectId : String
  title : Option String
  index : Nat
deriving DecidableEq, Repr

/-- A typed entry of the flat batch-JSON operations list produced by
`buildRestructurePayload`: either a heading operation (`attrs = none`
exactly for delete operations) or a to-do move operation
(`headingId = none` for unsectioned moves). -/
inductive Operation where
  | headingOp (id : String) (op : HOp) (attrs : Option HeadingAttrs)
  | todoMove (id : String) (listId : String) (headingId : Option String) (index : Nat)
deriving DecidableEq, Repr

/-- Is this entry a heading operation? -/
def Operation.isHeading : Operation → Bool
  | .headingOp _ _ _ => true
  | .todoMove _ _ _ _ => false

/-- Is this entry a to-do move operation? -/
def Operation.isTodo : Operation → Bool
  | .headingOp _ _ _ => false
  | .todoMove _ _ _ _ => true

/-- The id carried by an operation entry. -/
def Operation.opId : Operation → String
  | .headingOp i _ _ => i
  | .todoMove i _ _ _ => i

/-- The index of a to-do move operation (0 for heading entries). -/
def Operation.moveIndex : Operation → Nat
  | .headingOp _ _ _ => 0
  | .todoMove _ _ _ i => i

/-- An entry of the `createdHeadings` report: generated id plus the
requested title. -/
structure CreatedHeading where
  id : String
  title : Option String
deriving DecidableEq, Repr

/-- The mutable state of `buildRestructurePayload`'s `forEach` loop:
the two accumulator arrays `headingOperations` / `todoOperations`, the
counters `headingIndex` / `todoIndex`, the number of `randomUUID()`
calls made so far (`fresh`, used to index the modelled UUID supply),
and `createdHeadings`. -/
structure RState where
  hOps : List Operation := []
  tOps : List Operation := []
  hIdx : Nat := 0
  tIdx : Nat := 0
  fresh : Nat := 0
  created : List CreatedHeading := []
deriving DecidableEq, Repr

/-- The operation resolution of `buildRestructurePayload`:
`item.operation || (providedId ? (item.title || item.index !==
undefined ? "update" : "move") : "create")`.  Note that the JavaScript
tests on `providedId` and `item.title` are truthiness tests, so an
empty string behaves like an absent field here. -/
def resolvedOperation (h : RHeading) : HOp :=
  h.operation.getD
    (if optStrTruthy h.id then
      (if optStrTruthy h.title || h.index.isSome then HOp.update else HOp.move)
    else HOp.create)

/-- The inner `forEach` over a heading's (or an unsectioned block's)
todo ids: one move operation per id, with consecutive indices starting
at `start` (the current value of the `todoIndex` counter). -/
def moveOps (listId : String) (headingId : Option String) (start : Nat) :
    List String → List Operation
  | [] => []
  | t :: ts => Operation.todoMove t listId headingId start :: moveOps listId headingId (start + 1) ts

/-- One iteration of `buildRestructurePayload`'s loop on a heading
block.  `uuid` models the `randomUUID()` supply: the k-th generated
identifier is `uuid k`. -/
def processHeading (pid : String) (uuid : Nat → String) (s : RState) (h : RHeading) : RState :=
  let providedId := h.id
  let generatedId := providedId.getD (uuid s.fresh)
  let fresh' := if providedId.isNone then s.fresh + 1 else s.fresh
  let operation := resolvedOperation h
  let s₁ :=
    if operation ≠ HOp.delete then
      { s with
          hOps := s.hOps ++ [Operation.headingOp generatedId operation (some
            { projectId := pid
              title := truthyKeep h.title
              index := h.index.getD s.hIdx })]
          created :=
            if optStrTruthy providedId then s.created
            else s.created ++ [{ id := generatedId, title := h.title }]
          fresh := fresh' }
    else if optStrTruthy providedId then
      { s with
          hOps := s.hOps ++ [Operation.headingOp (providedId.getD "") HOp.delete none]
          fresh := fresh' }
    else { s with fresh := fresh' }
  let target := if operation = HOp.delete then none else some (providedId.getD generatedId)
  let s₂ :=
    if optStrTruthy target ∧ optListTruthy h.items then
      { s₁ with
          tOps := s₁.tOps ++ moveOps pid target s₁.tIdx (h.items.getD [])
          tIdx := s₁.tIdx + (h.items.getD []).length }
    else s₁
  if operation ≠ HOp.delete then { s₂ with hIdx := s₂.hIdx + 1 } else s₂

/-- One iteration of `buildRestructurePayload`'s loop. -/
def processItem (pid : String) (uuid : Nat → String) (s : RState) :
    RestructureLayoutItem → RState
  | .heading h => processHeading pid uuid s h
  | .unsectioned its =>
    if optListTruthy its then
      { s with
          tOps := s.tOps ++ moveOps pid none s.tIdx (its.getD [])
          tIdx := s.tIdx + (its.getD []).length }
    else s

/-- The whole `layout.forEach(...)` loop. -/
def runLayout (pid : String) (uuid : Nat → String) (s : RState) :
    List RestructureLayoutItem → RState
  | [] => s
  | it :: rest => runLayout pid uuid (processItem pid uuid s it) rest

/-- The result of `buildRestructurePayload`: the flat operations list
(`[...headingOperations, ...todoOperations]`) and the generated-id
report. -/
structure RestructureResult where
  operations : List Operation
  createdHeadings : List CreatedHeading
deriving DecidableEq, Repr

/-- `buildRestructurePayload(projectId, layout)` from src/index.ts,
with the `randomUUID()` supply made explicit. -/
def buildRestructurePayload (pid : String) (uuid : Nat → String)
    (layout : List RestructureLayoutItem) : RestructureResult :=
  let s := runLayout pid uuid {} layout
  { operations := s.hOps ++ s.tOps, createdHeadings := s.created }

/-! ## Flattened characterization of the restructure builder

The claim describes the payload as one flattened ordered list of typed
entries, heading operations first, with generated identifiers and
explicit index counters.  The functions below compute that flattened
form directly (one independent pass per entry kind); the
characterization lemma proves the builder equal to it. -/

/-- How much one heading block advances the `headingIndex` counter. -/
def hInc (h : RHeading) : Nat :=
  if resolvedOperation h ≠ HOp.delete then 1 else 0

/-- How many `randomUUID()` calls one heading block consumes. -/
def fInc (h : RHeading) : Nat :=
  if h.id.isNone then 1 else 0

/-- The heading operations emitted for one heading block, given the
current `headingIndex` counter and UUID-supply position. -/
def hStep (pid : String) (uuid : Nat → String) (hIdx fresh : Nat) (h : RHeading) :
    List Operation :=
  let generatedId := h.id.getD (uuid fresh)
  let operation := resolvedOperation h
  if operation ≠ HOp.delete then
    [Operation.headingOp generatedId operation (some
      { projectId := pid, title := truthyKeep h.title, index := h.index.getD hIdx })]
  else if optStrTruthy h.id then
    [Operation.headingOp (h.id.getD "") HOp.delete none]
  else []

/-- The to-do move operations emitted for one heading block. -/
def tStep (pid : String) (uuid : Nat → String) (tIdx fresh : Nat) (h : RHeading) :
    List Operation :=
  let generatedId := h.id.getD (uuid fresh)
  let operation := resolvedOperation h
  let target := if operation = HOp.delete then none else some (h.id.getD generatedId)
  if optStrTruthy target ∧ optListTruthy h.items then
    moveOps pid target tIdx (h.items.getD [])
  else []

/-- How much one heading block advances the `todoIndex` counter.  This
depends on the UUID supply because the source tests the truthiness of
`targetHeadingId`, which is the generated identifier when the heading
has no id. -/
def tCountH (uuid : Nat → String) (fresh : Nat) (h : RHeading) : Nat :=
  let generatedId := h.id.getD (uuid fresh)
  let operation := resolvedOperation h
  let target := if operation = HOp.delete then none else some (h.id.getD generatedId)
  if optStrTruthy target ∧ optListTruthy h.items then (h.items.getD []).length else 0

/-- The `createdHeadings` entries produced by one heading block. -/
def cStep (uuid : Nat → String) (fresh : Nat) (h : RHeading) : List CreatedHeading :=
  if resolvedOperation h ≠ HOp.delete ∧ ¬ optStrTruthy h.id then
    [{ id := h.id.getD (uuid fresh), title := h.title }]
  else []

/-- The to-do move operations emitted for one unsectioned block. -/
def uStep (pid : String) (tIdx : Nat) (its : Option (List String)) : List Operation :=
  if optListTruthy its then moveOps pid none tIdx (its.getD []) else []

/-- How much one unsectioned block advances the `todoIndex` counter. -/
def utCount (its : Option (List String)) : Nat :=
  if optListTruthy its then (its.getD []).length else 0

/-- Total advance of the `headingIndex` counter over a layout. -/
def hCount : List RestructureLayoutItem → Nat
  | [] => 0
  | .heading h :: rest => hInc h + hCount rest
  | .unsectioned _ :: rest => hCount rest

/-- Total number of `randomUUID()` calls over a layout. -/
def fCount : List RestructureLayoutItem → Nat
  | [] => 0
  | .heading h :: rest => fInc h + fCount rest
  | .unsectioned _ :: rest => fCount rest

/-- Total advance of the `todoIndex` counter over a layout, threading
the UUID-supply position. -/
def tCount (uuid : Nat → String) : List RestructureLayoutItem → Nat → Nat
  | [], _ => 0
  | .heading h :: rest, fresh => tCountH uuid fresh h + tCount uuid rest (fresh + fInc h)
  | .unsectioned its :: rest, fresh => utCount its + tCount uuid rest fresh

/-- The flat list of heading operations of a layout, threading the
`headingIndex` counter and the UUID-supply position. -/
def flatHeadingOps (pid : String) (uuid : Nat → String) :
    List RestructureLayoutItem → Nat → Nat → List Operation
  | [], _, _ => []
  | .heading h :: rest, hIdx, fresh =>
    hStep pid uuid hIdx fresh h ++ flatHeadingOps pid uuid rest (hIdx + hInc h) (fresh + fInc h)
  | .unsectioned _ :: rest, hIdx, fresh => flatHeadingOps pid uuid rest hIdx fresh

/-- The flat list of to-do move operations of a layout, threading the
single shared `todoIndex` counter and the UUID-supply position. -/
def flatTodoOps (pid : String) (uuid : Nat → String) :
    List RestructureLayoutItem → Nat → Nat → List Operation
  | [], _, _ => []
  | .heading h :: rest, tIdx, fresh =>
    tStep pid uuid tIdx fresh h ++
      flatTodoOps pid uuid rest (tIdx + tCountH uuid fresh h) (fresh + fInc h)
  | .unsectioned its :: rest, tIdx, fresh =>
    uStep pid tIdx its ++ flatTodoOps pid uuid rest (tIdx + utCount its) fresh

/-- The flat list of generated-heading reports of a layout. -/
def flatCreated (uuid : Nat → String) :
    List RestructureLayoutItem → Nat → List CreatedHeading
  | [], _ => []
  | .heading h :: rest, fresh => cStep uuid fresh h ++ flatCreated uuid rest (fresh + fInc h)
  | .unsectioned _ :: rest, fresh => flatCreated uuid rest fresh

lemma moveOps_length (lid : String) (hid : Option String) (start : Nat) (ids : List String) :
    (moveOps lid hid start ids).length = ids.length := by
  induction ids generalizing start with
  | nil => rfl
  | cons t ts ih => simp [moveOps, ih]

/-- One loop iteration on a heading block, in factored form. -/
lemma processHeading_eq (pid : String) (uuid : Nat → String) (s : RState) (h : RHeading) :
    processHeading pid uuid s h =
      { hOps := s.hOps ++ hStep pid uuid s.hIdx s.fresh h
        tOps := s.tOps ++ tStep pid uuid s.tIdx s.fresh h
        hIdx := s.hIdx + hInc h
        tIdx := s.tIdx + tCountH uuid s.fresh h
        fresh := s.fresh + fInc h
        created := s.created ++ cStep uuid s.fresh h } := by
  simp only [processHeading, hStep, tStep, tCountH, cStep, hInc, fInc]
  by_cases hdel : resolvedOperation h = HOp.delete <;>
    by_cases hid : optStrTruthy h.id <;>
    simp_all <;>
    split_ifs <;>
    simp_all [moveOps_length, Nat.add_comm]

/-- One loop iteration on an unsectioned block, in factored form. -/
lemma processItem_unsectioned_eq (pid : String) (uuid : Nat → String) (s : RState)
    (its : Option (List String)) :
    processItem pid uuid s (.unsectioned its) =
      { s with
          tOps := s.tOps ++ uStep pid s.tIdx its
          tIdx := s.tIdx + utCount its } := by
  simp only [processItem, uStep, utCount]
  split_ifs <;> simp_all

/-- Characterization of the whole loop: starting from any accumulator
state, the final state appends exactly the flattened operation lists
and advances the counters by the layout totals. -/
lemma runLayout_eq (pid : String) (uuid : Nat → String) :
    ∀ (layout : List RestructureLayoutItem) (s : RState),
      runLayout pid uuid s layout =
        { hOps := s.hOps ++ flatHeadingOps pid uuid layout s.hIdx s.fresh
          tOps := s.tOps ++ flatTodoOps pid uuid layout s.tIdx s.fresh
          hIdx := s.hIdx + hCount layout
          tIdx := s.tIdx + tCount uuid layout s.fresh
          fresh := s.fresh + fCount layout
          created := s.created ++ flatCreated uuid layout s.fresh } := by
  intro layout
  induction layout with
  | nil => intro s; simp [runLayout, flatHeadingOps, flatTodoOps, flatCreated, hCount, tCount, fCount]
  | cons it rest ih =>
    intro s
    cases it with
    | heading h =>
      rw [runLayout, processItem, processHeading_eq, ih]
      simp [flatHeadingOps, flatTodoOps, flatCreated, hCount, tCount, fCount,
        Nat.add_assoc, List.append_assoc]
    | unsectioned its =>
      rw [runLayout, processItem_unsectioned_eq, ih]
      simp [flatHeadingOps, flatTodoOps, flatCreated, hCount, tCount, fCount,
        Nat.add_assoc, List.append_assoc]

/-- The restructure payload in flattened form: all heading operations,
in layout order, followed by all to-do move operations. -/
theorem buildRestructurePayload_eq (pid : String) (uuid : Nat → String)
    (layout : List RestructureLayoutItem) :
    buildRestructurePayload pid uuid layout =
      { operations := flatHeadingOps pid uuid layout 0 0 ++ flatTodoOps pid uuid layout 0 0
        createdHeadings := flatCreated uuid layout 0 } := by
  simp [buildRestructurePayload, runLayout_eq]

/-! ## Structural facts about the flattened operation lists -/

lemma moveOps_map_opId (lid : String) (hid : Option String) (start : Nat) (ids : List String) :
    (moveOps lid hid start ids).map Operation.opId = ids := by
  induction ids generalizing start with
  | nil => rfl
  | cons t ts ih => simp [moveOps, Operation.opId, ih]

lemma moveOps_map_moveIndex (lid : String) (hid : Option String) (start : Nat)
    (ids : List String) :
    (moveOps lid hid start ids).map Operation.moveIndex = List.range' start ids.length := by
  induction ids generalizing start with
  | nil => rfl
  | cons t ts ih => simp [moveOps, Operation.moveIndex, ih, List.range'_succ]

lemma moveOps_all_isTodo (lid : String) (hid : Option String) (start : Nat) (ids : List String) :
    ∀ op ∈ moveOps lid hid start ids, op.isTodo := by
  induction ids generalizing start with
  | nil => simp [moveOps]
  | cons t ts ih =>
    simp only [moveOps, List.mem_cons]
    rintro op (rfl | hop)
    · rfl
    · exact ih _ op hop

lemma moveOps_append (lid : String) (hid : Option String) (start : Nat) (xs ys : List String) :
    moveOps lid hid start (xs ++ ys) =
      moveOps lid hid start xs ++ moveOps lid hid (start + xs.length) ys := by
  induction xs generalizing start with
  | nil => simp [moveOps]
  | cons x xs ih =>
    simp [moveOps, ih, Nat.add_assoc, Nat.add_comm 1 xs.length]

lemma tStep_length (pid : String) (uuid : Nat → String) (tIdx fresh : Nat) (h : RHeading) :
    (tStep pid uuid tIdx fresh h).length = tCountH uuid fresh h := by
  simp only [tStep, tCountH]
  split_ifs <;> simp [moveOps_length]

lemma uStep_length (pid : String) (tIdx : Nat) (its : Option (List String)) :
    (uStep pid tIdx its).length = utCount its := by
  simp only [uStep, utCount]
  split_ifs <;> simp [moveOps_length]

lemma hStep_all_isHeading (pid : String) (uuid : Nat → String) (hIdx fresh : Nat)
    (h : RHeading) : ∀ op ∈ hStep pid uuid hIdx fresh h, op.isHeading := by
  simp only [hStep]
  split_ifs <;> simp [Operation.isHeading]

lemma tStep_all_isTodo (pid : String) (uuid : Nat → String) (tIdx fresh : Nat)
    (h : RHeading) : ∀ op ∈ tStep pid uuid tIdx fresh h, op.isTodo := by
  simp only [tStep]
  split_ifs <;> first
    | exact moveOps_all_isTodo _ _ _ _
    | simp

lemma uStep_all_isTodo (pid : String) (tIdx : Nat) (its : Option (List String)) :
    ∀ op ∈ uStep pid tIdx its, op.isTodo := by
  simp only [uStep]
  split_ifs with hc
  · exact moveOps_all_isTodo _ _ _ _
  · simp

lemma flatHeadingOps_all_isHeading (pid : String) (uuid : Nat → String) :
    ∀ (layout : List RestructureLayoutItem) (hIdx fresh : Nat),
      ∀ op ∈ flatHeadingOps pid uuid layout hIdx fresh, op.isHeading := by
  intro layout
  induction layout with
  | nil => simp [flatHeadingOps]
  | cons it rest ih =>
    intro hIdx fresh op hop
    cases it with
    | heading h =>
      simp only [flatHeadingOps, List.mem_append] at hop
      rcases hop with hop | hop
      · exact hStep_all_isHeading _ _ _ _ _ op hop
      · exact ih _ _ op hop
    | unsectioned its => exact ih _ _ op hop

lemma flatTodoOps_all_isTodo (pid : String) (uuid : Nat → String) :
    ∀ (layout : List RestructureLayoutItem) (tIdx fresh : Nat),
      ∀ op ∈ flatTodoOps pid uuid layout tIdx fresh, op.isTodo := by
  intro layout
  induction layout with
  | nil => simp [flatTodoOps]
  | cons it rest ih =>
    intro tIdx fresh op hop
    cases it with
    | heading h =>
      simp only [flatTodoOps, List.mem_append] at hop
      rcases hop with hop | hop
      · exact tStep_all_isTodo _ _ _ _ _ op hop
      · exact ih _ _ op hop
    | unsectioned its =>
      simp only [flatTodoOps, List.mem_append] at hop
      rcases hop with hop | hop
      · exact uStep_all_isTodo _ _ _ op hop
      · exact ih _ _ op hop

lemma tStep_map_moveIndex (pid : String) (uuid : Nat → String) (tIdx fresh : Nat)
    (h : RHeading) :
    (tStep pid uuid tIdx fresh h).map Operation.moveIndex =
      List.range' tIdx (tCountH uuid fresh h) := by
  simp only [tStep, tCountH]
  split_ifs <;> simp [moveOps_map_moveIndex]

lemma uStep_map_moveIndex (pid : String) (tIdx : Nat) (its : Option (List String)) :
    (uStep pid tIdx its).map Operation.moveIndex = List.range' tIdx (utCount its) := by
  simp only [uStep, utCount]
  split_ifs <;> simp [moveOps_map_moveIndex]

/-- The to-do move operations carry the consecutive indices
`tIdx, tIdx+1, ...`: the `todoIndex` counter is one shared sequence
across all blocks of the layout. -/
lemma flatTodoOps_map_moveIndex (pid : String) (uuid : Nat → String) :
    ∀ (layout : List RestructureLayoutItem) (tIdx fresh : Nat),
      (flatTodoOps pid uuid layout tIdx fresh).map Operation.moveIndex =
        List.range' tIdx (tCount uuid layout fresh) := by
  intro layout
  induction layout with
  | nil => simp [flatTodoOps, tCount]
  | cons it rest ih =>
    intro tIdx fresh
    cases it with
    | heading h =>
      simp [flatTodoOps, tCount, tStep_map_moveIndex, ih, Nat.add_comm]
    | unsectioned its =>
      simp [flatTodoOps, tCount, uStep_map_moveIndex, ih, Nat.add_comm]

lemma flatTodoOps_length (pid : String) (uuid : Nat → String) :
    ∀ (layout : List RestructureLayoutItem) (tIdx fresh : Nat),
      (flatTodoOps pid uuid layout tIdx fresh).length = tCount uuid layout fresh := by
  intro layout
  induction layout with
  | nil => simp [flatTodoOps, tCount]
  | cons it rest ih =>
    intro tIdx fresh
    cases it with
    | heading h => simp [flatTodoOps, tCount, tStep_length, ih]
    | unsectioned its => simp [flatTodoOps, tCount, uStep_length, ih]

/-! ## Layouts consisting only of unsectioned blocks -/

/-- All todo ids listed by the unsectioned blocks of a layout, in
layout order. -/
def unsectionedIds (layout : List RestructureLayoutItem) : List String :=
  (layout.map fun it =>
    match it with
    | .unsectioned its => its.getD []
    | .heading _ => []).flatten

lemma uStep_eq_moveOps (pid : String) (tIdx : Nat) (its : Option (List String)) :
    uStep pid tIdx its = moveOps pid none tIdx (its.getD []) := by
  simp only [uStep, optListTruthy]
  split_ifs with hc
  · rfl
  · simp only [ne_eq, decide_not, Bool.not_eq_true', decide_eq_false_iff_not,
      Decidable.not_not] at hc
    simp [hc, moveOps]

lemma utCount_eq_length (its : Option (List String)) :
    utCount its = (its.getD []).length := by
  simp only [utCount, optListTruthy]
  split_ifs with hc
  · rfl
  · simp only [ne_eq, decide_not, Bool.not_eq_true', decide_eq_false_iff_not,
      Decidable.not_not] at hc
    simp [hc]

lemma flatHeadingOps_unsectioned (pid : String) (uuid : Nat → String) :
    ∀ (layout : List RestructureLayoutItem),
      (∀ it ∈ layout, ∃ its, it = .unsectioned its) →
      ∀ (hIdx fresh : Nat), flatHeadingOps pid uuid layout hIdx fresh = [] := by
  intro layout
  induction layout with
  | nil => intro _ hIdx fresh; rfl
  | cons it rest ih =>
    intro hu hIdx fresh
    obtain ⟨its, rfl⟩ := hu it (List.mem_cons_self it rest)
    exact ih (fun x hx => hu x (List.mem_cons_of_mem _ hx)) hIdx fresh

lemma flatTodoOps_unsectioned (pid : String) (uuid : Nat → String) :
    ∀ (layout : List RestructureLayoutItem),
      (∀ it ∈ layout, ∃ its, it = .unsectioned its) →
      ∀ (tIdx fresh : Nat),
        flatTodoOps pid uuid layout tIdx fresh =
          moveOps pid none tIdx (unsectionedIds layout) := by
  intro layout
  induction layout with
  | nil => intro _ tIdx fresh; rfl
  | cons it rest ih =>
    intro hu tIdx fresh
    obtain ⟨its, rfl⟩ := hu it (List.mem_cons_self it rest)
    have hrest := ih (fun x hx => hu x (List.mem_cons_of_mem _ hx))
    simp only [flatTodoOps, unsectionedIds, List.map_cons, List.flatten_cons]
    rw [uStep_eq_moveOps, utCount_eq_length, hrest, moveOps_append]
    rfl

/-! ## Structured-project input (zod `StructuredProjectSchema`) -/

/-- A checklist item of a structured to-do: either a bare string or an
object with a title and an optional completion flag
(`ChecklistItemSchema`). -/
inductive ChecklistItemInput where
  | str (title : String)
  | obj (title : String) (completed : Option Bool)
deriving DecidableEq, Repr

/-- A structured to-do (`StructuredTodoSchema`). -/
structure StructuredTodoInput where
  title : String
  notes : Option String := none
  «when» : Option String := none
  deadline : Option String := none
  checklistItems : Option (List ChecklistItemInput) := none
  tags : Option (List String) := none
  canceled : Option Bool := none
  completed : Option Bool := none
  area : Option String := none
  areaId : Option String := none
  headingId : Option String := none
  listId : Option String := none
  index : Option Nat := none
deriving DecidableEq, Repr

/-- A heading or to-do inside a structured project
(`StructuredProjectItemSchema`). -/
inductive StructuredProjectItemInput where
  | heading (title : String) (notes : Option String) (index : Option Nat)
      (items : Option (List StructuredTodoInput))
  | todo (t : StructuredTodoInput)
deriving DecidableEq, Repr

/-- A structured project (`StructuredProjectSchema`). -/
structure StructuredProjectInput where
  title : String
  notes : Option String := none
  «when» : Option String := none
  deadline : Option String := none
  tags : Option (List String) := none
  area : Option String := none
  areaId : Option String := none
  canceled : Option Bool := none
  completed : Option Bool := none
  index : Option Nat := none
  items : Option (List StructuredProjectItemInput) := none
deriving DecidableEq, Repr

/-! ## Structured-project payload output -/

/-- A `{type: "checklist-item", attributes: {title, completed?}}`
entry produced by `buildChecklistItems`. -/
structure ChecklistEntry where
  title : String
  completed : Option Bool
deriving DecidableEq, Repr

/-- The `attributes` object produced by `buildTodo`: fields guarded by
truthiness (strings, non-empty arrays) or by `!== undefined`
(booleans, index) in the source. -/
structure TodoAttrs where
  title : String
  notes : Option String
  «when» : Option String
  deadline : Option String
  tags : Option (List String)
  canceled : Option Bool
  completed : Option Bool
  area : Option String
  areaId : Option String
  headingId : Option String
  listId : Option String
  index : Option Nat
deriving DecidableEq, Repr

/-- A `{type: "to-do", attributes, items?}` entry produced by
`buildTodo`; `items` is the checklist, present only when non-empty. -/
structure TodoEntry where
  attributes : TodoAttrs
  items : Option (List ChecklistEntry)
deriving DecidableEq, Repr

/-- The heading attributes produced by `buildProjectItems`.  Note that
a heading entry of the structured payload carries no identifier at
all. -/
structure HeadingEntryAttrs where
  title : String
  notes : Option String
  index : Option Nat
deriving DecidableEq, Repr

/-- One entry of the structured project's `items` list: a heading
(with its to-dos nested under it) or a top-level to-do. -/
inductive ProjectItemEntry where
  | heading (attributes : HeadingEntryAttrs) (items : Option (List TodoEntry))
  | todo (entry : TodoEntry)
deriving DecidableEq, Repr

/-- The project attributes of `buildStructuredProjectPayload`. -/
structure ProjectAttrs where
  title : String
  notes : Option String
  «when» : Option String
  deadline : Option String
  tags : Option (List String)
  area : Option String
  areaId : Option String
  canceled : Option Bool
  completed : Option Bool
  index : Option Nat
deriving DecidableEq, Repr

/-- The single `{type: "project", attributes, items?}` object of the
structured payload. -/
structure ProjectPayloadEntry where
  attributes : ProjectAttrs
  items : Option (List ProjectItemEntry)
deriving DecidableEq, Repr

/-- Keep an optional string-array only when it is non-empty (mirrors
`x.tags?.length` truthiness guards). -/
def nonemptyKeep (l : Option (List String)) : Option (List String) :=
  if optListTruthy l then l else none

/-- `buildChecklistItems` from src/index.ts. -/
def buildChecklistItems (items : List ChecklistItemInput) : List ChecklistEntry :=
  items.map fun item =>
    match item with
    | .str s => { title := s, completed := none }
    | .obj t c => { title := t, completed := c }

/-- `buildTodo` from src/index.ts. -/
def buildTodo (todo : StructuredTodoInput) : TodoEntry :=
  { attributes :=
      { title := todo.title
        notes := truthyKeep todo.notes
        «when» := truthyKeep todo.when
        deadline := truthyKeep todo.deadline
        tags := nonemptyKeep todo.tags
        canceled := todo.canceled
        completed := todo.completed
        area := truthyKeep todo.area
        areaId := truthyKeep todo.areaId
        headingId := truthyKeep todo.headingId
        listId := truthyKeep todo.listId
        index := todo.index }
    items :=
      if todo.checklistItems.getD [] ≠ [] then
        some (buildChecklistItems (todo.checklistItems.getD []))
      else none }

/-- `buildProjectItems` from src/index.ts: a plain map over the input
items; headings keep their to-dos nested in their own `items` list. -/
def buildProjectItems (items : List StructuredProjectItemInput) : List ProjectItemEntry :=
  items.map fun item =>
    match item with
    | .heading title notes index its =>
      .heading
        { title := title, notes := truthyKeep notes, index := index }
        (if its.getD [] ≠ [] then some ((its.getD []).map buildTodo) else none)
    | .todo t => .todo (buildTodo t)

/-- `buildStructuredProjectPayload` from src/index.ts. -/
def buildStructuredProjectPayload (project : StructuredProjectInput) :
    List ProjectPayloadEntry :=
  [{ attributes :=
       { title := project.title
         notes := truthyKeep project.notes
         «when» := truthyKeep project.when
         deadline := truthyKeep project.deadline
         tags := nonemptyKeep project.tags
         area := truthyKeep project.area
         areaId := truthyKeep project.areaId
         canceled := project.canceled
         completed := project.completed
         index := project.index }
     items :=
       if (project.items.getD []).length ≠ 0 then
         some (buildProjectItems (project.items.getD []))
       else none }]

/-- The number of nodes (headings and to-dos) of a structured-project
item tree: what a flattening into one list of typed entries would have
to enumerate. -/
def structuredNodeCount : List StructuredProjectItemInput → Nat
  | [] => 0
  | .heading _ _ _ its :: rest => 1 + (its.getD []).length + structuredNodeCount rest
  | .todo _ :: rest => 1 + structuredNodeCount rest

/-! ## Auth-token resolution (`resolveAuthToken`) -/

/-- Modelled from the spec: the whitespace characters removed by
JavaScript's `String.prototype.trim` (space-like characters and line
terminators). -/
def isJsWhitespace (c : Char) : Bool :=
  c = ' ' || c = '\t' || c = '\n' || c = '\r' ||
    c.toNat = 11 || c.toNat = 12 || c.toNat = 160 || c.toNat = 65279

/-- Modelled from the spec: `String.prototype.trim`, removing leading
and trailing whitespace. -/
def jsTrim (s : String) : String :=
  ⟨((s.data.dropWhile isJsWhitespace).reverse.dropWhile isJsWhitespace).reverse⟩

/-- The test `tok && tok.trim().length > 0` applied to an optional
token. -/
def tokenUsable : Option String → Bool
  | some t => t ≠ "" && (jsTrim t).length > 0
  | none => false

/-- The error message thrown by `resolveAuthToken`. -/
def authRequiredMsg : String :=
  "Things auth token is required. Supply `auth-token` parameter or set THINGS_AUTH_TOKEN env var."

/-- `resolveAuthToken` from src/index.ts: the explicit parameter wins
when non-blank, else the `THINGS_AUTH_TOKEN` environment value when
non-blank, else the function throws (modelled as `Except.error`). -/
def resolveAuthToken (paramToken envToken : Option String) : Except String String :=
  if tokenUsable paramToken then Except.ok (paramToken.getD "")
  else if tokenUsable envToken then Except.ok (envToken.getD "")
  else Except.error authRequiredMsg

/-! ## URL query encoding

Modelled from the spec: the source serializes parameters with
`URLSearchParams.toString()`, i.e. standard
`application/x-www-form-urlencoded` query encoding (UTF-8 bytes;
alphanumerics and `*-._` kept, space as `+`, every other byte
percent-encoded; pairs joined `k=v` with `&`).  Bytes are modelled as
`Nat` values below 256. -/

/-- UTF-8 encoding of one character (code point to bytes). -/
def utf8EncodeChar (c : Char) : List Nat :=
  let v := c.toNat
  if v < 128 then [v]
  else if v < 2048 then [192 + v / 64, 128 + v % 64]
  else if v < 65536 then [224 + v / 4096, 128 + v / 64 % 64, 128 + v % 64]
  else [240 + v / 262144, 128 + v / 4096 % 64, 128 + v / 64 % 64, 128 + v % 64]

/-- UTF-8 encoding of a character list. -/
def utf8Encode (cs : List Char) : List Nat :=
  (cs.map utf8EncodeChar).flatten

/-- One step of UTF-8 decoding: the character encoded by the lead
byte `b` (and continuation bytes taken from `bs`) together with the
remaining bytes.  Malformed input yields the replacement character. -/
def utf8DecodeStep (b : Nat) (bs : List Nat) : Char × List Nat :=
  if b < 128 then (Char.ofNat b, bs)
  else if b < 224 then
    match bs with
    | b1 :: bs' => (Char.ofNat ((b - 192) * 64 + (b1 - 128)), bs')
    | [] => (Char.ofNat 65533, [])
  else if b < 240 then
    match bs with
    | b1 :: b2 :: bs' => (Char.ofNat ((b - 224) * 4096 + (b1 - 128) * 64 + (b2 - 128)), bs')
    | _ => (Char.ofNat 65533, [])
  else
    match bs with
    | b1 :: b2 :: b3 :: bs' =>
      (Char.ofNat ((b - 240) * 262144 + (b1 - 128) * 4096 + (b2 - 128) * 64 + (b3 - 128)), bs')
    | _ => (Char.ofNat 65533, [])

lemma utf8DecodeStep_snd_le (b : Nat) (bs : List Nat) :
    (utf8DecodeStep b bs).2.length ≤ bs.length := by
  simp only [utf8DecodeStep]
  split_ifs <;>
    rcases bs with _ | ⟨b1, _ | ⟨b2, _ | ⟨b3, bs'⟩⟩⟩ <;>
    simp <;> omega

/-- UTF-8 decoding, the inverse used to state the round-trip
property. -/
def utf8Decode : List Nat → List Char
  | [] => []
  | b :: bs =>
    (utf8DecodeStep b bs).1 :: utf8Decode (utf8DecodeStep b bs).2
termination_by l => l.length
decreasing_by
  simp only [List.length_cons]
  exact Nat.lt_succ_of_le (utf8DecodeStep_snd_le b bs)

/-- The bytes `URLSearchParams` leaves unescaped: alphanumerics and
`*`, `-`, `.`, `_`. -/
def isSafeByte (b : Nat) : Bool :=
  (48 ≤ b && b ≤ 57) || (65 ≤ b && b ≤ 90) || (97 ≤ b && b ≤ 122) ||
    b == 42 || b == 45 || b == 46 || b == 95

/-- Uppercase hexadecimal digit for a value below 16. -/
def hexDigit (n : Nat) : Char :=
  Char.ofNat (if n < 10 then 48 + n else 55 + n)

/-- Value of a hexadecimal digit character. -/
def hexVal (c : Char) : Nat :=
  let v := c.toNat
  if 48 ≤ v ∧ v ≤ 57 then v - 48
  else if 65 ≤ v ∧ v ≤ 70 then v - 55
  else if 97 ≤ v ∧ v ≤ 102 then v - 87
  else 0

/-- Form-urlencoding of one byte: kept, `+` for space, or `%XX`. -/
def encodeByte (b : Nat) : List Char :=
  if isSafeByte b then [Char.ofNat b]
  else if b = 32 then ['+']
  else ['%', hexDigit (b / 16), hexDigit (b % 16)]

/-- Form-urlencoding of a byte sequence. -/
def urlencodeBytes (bs : List Nat) : List Char :=
  (bs.map encodeByte).flatten

/-- Form-urlencoding of a string. -/
def urlencode (s : String) : List Char :=
  urlencodeBytes (utf8Encode s.data)

/-- One step of form-urlencoded decoding: the bytes contributed by
the character `c` (consuming two hex digits from `cs` after a `%`)
and the remaining characters. -/
def urldecodeStep (c : Char) (cs : List Char) : List Nat × List Char :=
  if c = '+' then ([32], cs)
  else if c = '%' then
    match cs with
    | h1 :: h2 :: cs' => ([hexVal h1 * 16 + hexVal h2], cs')
    | _ => ([], [])
  else ([c.toNat], cs)

lemma urldecodeStep_snd_le (c : Char) (cs : List Char) :
    (urldecodeStep c cs).2.length ≤ cs.length := by
  simp only [urldecodeStep]
  split_ifs <;>
    rcases cs with _ | ⟨h1, _ | ⟨h2, cs'⟩⟩ <;>
    simp <;> omega

/-- Decoding of a form-urlencoded character sequence back to bytes. -/
def urldecodeBytes : List Char → List Nat
  | [] => []
  | c :: cs =>
    (urldecodeStep c cs).1 ++ urldecodeBytes (urldecodeStep c cs).2
termination_by l => l.length
decreasing_by
  simp only [List.length_cons]
  exact Nat.lt_succ_of_le (urldecodeStep_snd_le c cs)

/-- Decoding of a form-urlencoded character sequence to a string. -/
def urldecode (cs : List Char) : String :=
  ⟨utf8Decode (urldecodeBytes cs)⟩

/-! ## Round-trip lemmas for the query encoding -/

lemma char_toNat_lt (c : Char) : c.toNat < 1114112 := by
  rcases c.valid with h | h
  · exact Nat.lt_trans h (by decide)
  · exact h.2

lemma char_toNat_ofNat (n : Nat) (h : n < 55296) : (Char.ofNat n).toNat = n := by
  rw [Char.ofNat, dif_pos (Or.inl h)]
  rfl

lemma utf8EncodeChar_lt_256 (c : Char) : ∀ b ∈ utf8EncodeChar c, b < 256 := by
  have hv := char_toNat_lt c
  simp only [utf8EncodeChar]
  split_ifs <;> simp_all <;> omega

lemma utf8Encode_cons (c : Char) (cs : List Char) :
    utf8Encode (c :: cs) = utf8EncodeChar c ++ utf8Encode cs := by
  simp [utf8Encode]

lemma utf8DecodeStep_one (b : Nat) (bs : List Nat) (hb : b < 128) :
    utf8DecodeStep b bs = (Char.ofNat b, bs) := by
  simp only [utf8DecodeStep]
  rw [if_pos hb]

lemma utf8DecodeStep_two (b b1 : Nat) (bs : List Nat) (hb1 : ¬ b < 128) (hb2 : b < 224) :
    utf8DecodeStep b (b1 :: bs) = (Char.ofNat ((b - 192) * 64 + (b1 - 128)), bs) := by
  simp only [utf8DecodeStep]
  rw [if_neg hb1, if_pos hb2]

lemma utf8DecodeStep_three (b b1 b2 : Nat) (bs : List Nat)
    (hb1 : ¬ b < 128) (hb2 : ¬ b < 224) (hb3 : b < 240) :
    utf8DecodeStep b (b1 :: b2 :: bs) =
      (Char.ofNat ((b - 224) * 4096 + (b1 - 128) * 64 + (b2 - 128)), bs) := by
  simp only [utf8DecodeStep]
  rw [if_neg hb1, if_neg hb2, if_pos hb3]

lemma utf8DecodeStep_four (b b1 b2 b3 : Nat) (bs : List Nat)
    (hb1 : ¬ b < 128) (hb2 : ¬ b < 224) (hb3 : ¬ b < 240) :
    utf8DecodeStep b (b1 :: b2 :: b3 :: bs) =
      (Char.ofNat ((b - 240) * 262144 + (b1 - 128) * 4096 + (b2 - 128) * 64 + (b3 - 128)), bs) := by
  simp only [utf8DecodeStep]
  rw [if_neg hb1, if_neg hb2, if_neg hb3]

lemma utf8Decode_cons (b : Nat) (bs : List Nat) :
    utf8Decode (b :: bs) =
      (utf8DecodeStep b bs).1 :: utf8Decode (utf8DecodeStep b bs).2 := by
  rw [utf8Decode]

lemma utf8Decode_encodeChar (c : Char) (bs : List Nat) :
    utf8Decode (utf8EncodeChar c ++ bs) = c :: utf8Decode bs := by
  have hv := char_toNat_lt c
  simp only [utf8EncodeChar]
  by_cases h1 : c.toNat < 128
  · rw [if_pos h1, List.cons_append, List.nil_append, utf8Decode_cons,
      utf8DecodeStep_one _ _ h1, Char.ofNat_toNat]
  · by_cases h2 : c.toNat < 2048
    · have e1 : ¬ (192 + c.toNat / 64 < 128) := by omega
      have e2 : 192 + c.toNat / 64 < 224 := by omega
      rw [if_neg h1, if_pos h2, List.cons_append, List.cons_append, List.nil_append,
        utf8Decode_cons, utf8DecodeStep_two _ _ _ e1 e2]
      have : (192 + c.toNat / 64 - 192) * 64 + (128 + c.toNat % 64 - 128) = c.toNat := by omega
      rw [this, Char.ofNat_toNat]
    · by_cases h3 : c.toNat < 65536
      · have e1 : ¬ (224 + c.toNat / 4096 < 128) := by omega
        have e2 : ¬ (224 + c.toNat / 4096 < 224) := by omega
        have e3 : 224 + c.toNat / 4096 < 240 := by omega
        rw [if_neg h1, if_neg h2, if_pos h3, List.cons_append, List.cons_append,
          List.cons_append, List.nil_append, utf8Decode_cons,
          utf8DecodeStep_three _ _ _ _ e1 e2 e3]
        have : (224 + c.toNat / 4096 - 224) * 4096 + (128 + c.toNat / 64 % 64 - 128) * 64 +
            (128 + c.toNat % 64 - 128) = c.toNat := by omega
        rw [this, Char.ofNat_toNat]
      · have e1 : ¬ (240 + c.toNat / 262144 < 128) := by omega
        have e2 : ¬ (240 + c.toNat / 262144 < 224) := by omega
        have e3 : ¬ (240 + c.toNat / 262144 < 240) := by omega
        rw [if_neg h1, if_neg h2, if_neg h3, List.cons_append, List.cons_append,
          List.cons_append, List.cons_append, List.nil_append, utf8Decode_cons,
          utf8DecodeStep_four _ _ _ _ _ e1 e2 e3]
        have : (240 + c.toNat / 262144 - 240) * 262144 + (128 + c.toNat / 4096 % 64 - 128) * 4096 +
            (128 + c.toNat / 64 % 64 - 128) * 64 + (128 + c.toNat % 64 - 128) = c.toNat := by
          omega
        rw [this, Char.ofNat_toNat]

lemma utf8Decode_encode (cs : List Char) : utf8Decode (utf8Encode cs) = cs := by
  induction cs with
  | nil =>
    rw [show utf8Encode [] = [] from rfl, utf8Decode]
  | cons c cs ih =>
    rw [utf8Encode_cons, utf8Decode_encodeChar, ih]

lemma hexVal_hexDigit (n : Nat) (h : n < 16) : hexVal (hexDigit n) = n := by
  interval_cases n <;> decide

lemma urldecodeBytes_cons (c : Char) (cs : List Char) :
    urldecodeBytes (c :: cs) =
      (urldecodeStep c cs).1 ++ urldecodeBytes (urldecodeStep c cs).2 := by
  rw [urldecodeBytes]

lemma urldecodeStep_plus (cs : List Char) : urldecodeStep '+' cs = ([32], cs) := by
  simp [urldecodeStep]

lemma urldecodeStep_pct (h1 h2 : Char) (cs : List Char) :
    urldecodeStep '%' (h1 :: h2 :: cs) = ([hexVal h1 * 16 + hexVal h2], cs) := by
  simp [urldecodeStep]

lemma urldecodeStep_other (c : Char) (cs : List Char) (hp : c ≠ '+') (hq : c ≠ '%') :
    urldecodeStep c cs = ([c.toNat], cs) := by
  simp only [urldecodeStep]
  rw [if_neg hp, if_neg hq]

lemma char_ofNat_ne (b m : Nat) (hb : b < 55296) (hm : m < 55296) (hne : b ≠ m) :
    Char.ofNat b ≠ Char.ofNat m := by
  intro h
  apply hne
  have := congrArg Char.toNat h
  rwa [char_toNat_ofNat _ hb, char_toNat_ofNat _ hm] at this

lemma encodeByte_decode (b : Nat) (hb : b < 256) (cs : List Char) :
    urldecodeBytes (encodeByte b ++ cs) = b :: urldecodeBytes cs := by
  by_cases hs : isSafeByte b
  · have hb' : b < 55296 := by omega
    have hb43 : b ≠ 43 := by
      intro h; subst h; simp [isSafeByte] at hs
    have hb37 : b ≠ 37 := by
      intro h; subst h; simp [isSafeByte] at hs
    have hp : Char.ofNat b ≠ '+' := char_ofNat_ne b 43 hb' (by decide) hb43
    have hq : Char.ofNat b ≠ '%' := char_ofNat_ne b 37 hb' (by decide) hb37
    rw [encodeByte, if_pos hs, List.cons_append, List.nil_append, urldecodeBytes_cons,
      urldecodeStep_other _ _ hp hq, char_toNat_ofNat _ hb']
    rfl
  · by_cases h32 : b = 32
    · subst h32
      rw [encodeByte, if_neg hs, if_pos rfl, List.cons_append, List.nil_append,
        urldecodeBytes_cons, urldecodeStep_plus]
      rfl
    · rw [encodeByte, if_neg hs, if_neg h32, List.cons_append, List.cons_append,
        List.cons_append, List.nil_append, urldecodeBytes_cons, urldecodeStep_pct,
        hexVal_hexDigit _ (by omega), hexVal_hexDigit _ (by omega)]
      have : b / 16 * 16 + b % 16 = b := by omega
      rw [this]
      rfl

lemma urlencodeBytes_cons (b : Nat) (bs : List Nat) :
    urlencodeBytes (b :: bs) = encodeByte b ++ urlencodeBytes bs := by
  simp [urlencodeBytes]

lemma urldecodeBytes_encode (bs : List Nat) (h : ∀ b ∈ bs, b < 256) :
    urldecodeBytes (urlencodeBytes bs) = bs := by
  induction bs with
  | nil => rw [show urlencodeBytes [] = [] from rfl, urldecodeBytes]
  | cons b bs ih =>
    rw [urlencodeBytes_cons, encodeByte_decode b (h b (List.mem_cons_self b bs)),
      ih (fun x hx => h x (List.mem_cons_of_mem _ hx))]

lemma urldecode_urlencode (s : String) : urldecode (urlencode s) = s := by
  rw [urldecode, urlencode, urldecodeBytes_encode _ (fun b hb => by
    simp only [utf8Encode, List.mem_flatten, List.mem_map] at hb
    obtain ⟨l, ⟨c, _, rfl⟩, hbl⟩ := hb
    exact utf8EncodeChar_lt_256 c b hbl),
    utf8Decode_encode]

/-! ## Query strings: `k=v` pairs joined with `&` -/

set_option maxRecDepth 8192 in
/-- Characters that can appear in a form-urlencoded value: safe
bytes, `+` and percent escapes.  `&` and `=` never occur, which makes
the query string unambiguous. -/
lemma encodeByte_mem_range (b : Nat) (hb : b < 256) :
    ∀ c ∈ encodeByte b, c ≠ '&' ∧ c ≠ '=' := by
  revert b
  decide

lemma urlencode_sep_free (s : String) : ∀ c ∈ urlencode s, c ≠ '&' ∧ c ≠ '=' := by
  intro c hc
  simp only [urlencode, urlencodeBytes, List.mem_flatten, List.mem_map] at hc
  obtain ⟨l, ⟨b, hb, rfl⟩, hcl⟩ := hc
  have hb256 : b < 256 := by
    simp only [utf8Encode, List.mem_flatten, List.mem_map] at hb
    obtain ⟨l', ⟨ch, _, rfl⟩, hbl⟩ := hb
    exact utf8EncodeChar_lt_256 ch b hbl
  exact encodeByte_mem_range b hb256 c hcl

/-- The encoding of one `key=value` pair. -/
def encodePair (p : String × String) : List Char :=
  urlencode p.1 ++ '=' :: urlencode p.2

/-- `URLSearchParams.toString()`: the encoded pairs joined with `&`. -/
def encodeParams : List (String × String) → List Char
  | [] => []
  | [p] => encodePair p
  | p :: ps => encodePair p ++ '&' :: encodeParams ps

/-- Split a character list at every occurrence of `sep`. -/
def splitSep (sep : Char) : List Char → List (List Char)
  | [] => [[]]
  | c :: cs =>
    match splitSep sep cs with
    | [] => if c = sep then [[], []] else [[c]]
    | g :: gs => if c = sep then [] :: g :: gs else (c :: g) :: gs

/-- Split a character list at the first occurrence of `sep` (the
whole list and an empty remainder if `sep` does not occur). -/
def splitFirst (sep : Char) : List Char → List Char × List Char
  | [] => ([], [])
  | c :: cs =>
    if c = sep then ([], cs)
    else
      let r := splitFirst sep cs
      (c :: r.1, r.2)

/-- Decode one `key=value` segment. -/
def decodePair (seg : List Char) : String × String :=
  (urldecode (splitFirst '=' seg).1, urldecode (splitFirst '=' seg).2)

/-- `URLSearchParams` parsing: split on `&`, drop empty segments,
decode each `key=value` segment. -/
def decodeParams (cs : List Char) : List (String × String) :=
  ((splitSep '&' cs).filter (· ≠ [])).map decodePair

lemma splitSep_ne_nil (sep : Char) (cs : List Char) : splitSep sep cs ≠ [] := by
  induction cs with
  | nil => simp [splitSep]
  | cons c cs ih =>
    simp only [splitSep]
    cases h : splitSep sep cs with
    | nil => split_ifs <;> simp
    | cons g gs => split_ifs <;> simp

lemma splitSep_sep_free (sep : Char) (xs : List Char) (h : ∀ c ∈ xs, c ≠ sep) :
    splitSep sep xs = [xs] := by
  induction xs with
  | nil => rfl
  | cons c cs ih =>
    have hc : c ≠ sep := h c (List.mem_cons_self c cs)
    have := ih (fun x hx => h x (List.mem_cons_of_mem _ hx))
    simp only [splitSep, this]
    rw [if_neg hc]

lemma splitSep_append (sep : Char) (xs ys : List Char) (h : ∀ c ∈ xs, c ≠ sep) :
    splitSep sep (xs ++ sep :: ys) = xs :: splitSep sep ys := by
  induction xs with
  | nil =>
    simp only [List.nil_append, splitSep]
    cases hy : splitSep sep ys with
    | nil => exact absurd hy (splitSep_ne_nil sep ys)
    | cons g gs => simp
  | cons c cs ih =>
    have hc : c ≠ sep := h c (List.mem_cons_self c cs)
    have hrest := ih (fun x hx => h x (List.mem_cons_of_mem _ hx))
    simp only [List.cons_append, splitSep, List.append_eq, hrest]
    rw [if_neg hc]

lemma splitFirst_append (sep : Char) (xs ys : List Char) (h : ∀ c ∈ xs, c ≠ sep) :
    splitFirst sep (xs ++ sep :: ys) = (xs, ys) := by
  induction xs with
  | nil => simp [splitFirst]
  | cons c cs ih =>
    have hc : c ≠ sep := h c (List.mem_cons_self c cs)
    have hrest := ih (fun x hx => h x (List.mem_cons_of_mem _ hx))
    simp only [List.cons_append, splitFirst, List.append_eq, hrest]
    rw [if_neg hc]

lemma decodePair_encodePair (p : String × String) : decodePair (encodePair p) = p := by
  have hfree : ∀ c ∈ urlencode p.1, c ≠ '=' := fun c hc => (urlencode_sep_free p.1 c hc).2
  simp only [decodePair, encodePair, splitFirst_append '=' _ _ hfree,
    urldecode_urlencode]

lemma encodePair_amp_free (p : String × String) : ∀ c ∈ encodePair p, c ≠ '&' := by
  intro c hc
  simp only [encodePair, List.mem_append, List.mem_cons] at hc
  rcases hc with hc | hc | hc
  · exact (urlencode_sep_free p.1 c hc).1
  · subst hc; decide
  · exact (urlencode_sep_free p.2 c hc).1

lemma encodePair_ne_nil (p : String × String) : encodePair p ≠ [] := by
  simp only [encodePair]
  intro h
  exact absurd (List.append_eq_nil.mp h).2 (by simp)

/-- Round trip at the query-string level: serializing a parameter
list with the form-urlencoding and parsing it back is the identity. -/
lemma decodeParams_encodeParams (ps : List (String × String)) :
    decodeParams (encodeParams ps) = ps := by
  induction ps with
  | nil => rfl
  | cons p ps ih =>
    cases ps with
    | nil =>
      simp only [decodeParams, encodeParams,
        splitSep_sep_free '&' _ (encodePair_amp_free p)]
      rw [List.filter_cons_of_pos (by simpa using encodePair_ne_nil p)]
      simp [decodePair_encodePair]
    | cons q qs =>
      simp only [decodeParams, encodeParams] at ih ⊢
      rw [splitSep_append '&' _ _ (encodePair_amp_free p),
        List.filter_cons_of_pos (by simpa using encodePair_ne_nil p)]
      simp only [List.map_cons, decodePair_encodePair, ih]

/-! ## Array joining -/

/-- Modelled from the spec: `Array.prototype.join(sep)` as used for
tag lists (`","`) and multi-line lists (`"\n"`). -/
def jsJoin (sep : String) : List String → String
  | [] => ""
  | [s] => s
  | s :: rest => s ++ sep ++ jsJoin sep rest

/-- Character-level joining, used to reason about `jsJoin`. -/
def charJoin (sep : List Char) : List (List Char) → List Char
  | [] => []
  | [x] => x
  | x :: rest => x ++ sep ++ charJoin sep rest

lemma jsJoin_data (sep : String) (l : List String) :
    (jsJoin sep l).data = charJoin sep.data (l.map String.data) := by
  induction l with
  | nil => rfl
  | cons s rest ih =>
    cases rest with
    | nil => rfl
    | cons t ts =>
      show (s ++ sep ++ jsJoin sep (t :: ts)).data =
        charJoin sep.data (s.data :: t.data :: List.map String.data ts)
      rw [String.data_append, String.data_append, ih]
      simp [charJoin]

lemma splitSep_charJoin (sep : Char) :
    ∀ (l : List (List Char)), l ≠ [] → (∀ x ∈ l, sep ∉ x) →
      splitSep sep (charJoin [sep] l) = l := by
  intro l
  induction l with
  | nil => intro h; exact absurd rfl h
  | cons x rest ih =>
    intro _ hfree
    cases rest with
    | nil =>
      exact splitSep_sep_free sep x fun c hc h =>
        (hfree x (List.mem_cons_self x [])) (h ▸ hc)
    | cons y ys =>
      have hx : ∀ c ∈ x, c ≠ sep := fun c hc h =>
        hfree x (List.mem_cons_self x _) (h ▸ hc)
      have : charJoin [sep] (x :: y :: ys) = x ++ sep :: charJoin [sep] (y :: ys) := by
        simp [charJoin]
      rw [this, splitSep_append sep x _ hx,
        ih (by simp) (fun z hz => hfree z (List.mem_cons_of_mem _ hz))]

/-! ## Query-parameter lists

The source builds each query with `URLSearchParams.set` calls on a
fresh object, each key set at most once; `set` appends a missing key
at the end, so the sequence of guarded `set` calls is modelled as the
concatenation of the guarded singleton lists below. -/

/-- Lookup of a key in a parameter list (first occurrence). -/
def qlookup : List (String × String) → String → Option String
  | [], _ => none
  | (k, v) :: ps, key => if key = k then some v else qlookup ps key

/-- `if (x) params.set(k, x)` — truthiness-guarded optional string. -/
def optTruthyStr (k : String) (v : Option String) : List (String × String) :=
  if optStrTruthy v then [(k, v.getD "")] else []

/-- `if (x !== undefined) params.set(k, x)` — presence-guarded
optional string. -/
def optDefStr (k : String) (v : Option String) : List (String × String) :=
  match v with
  | some s => [(k, s)]
  | none => []

/-- `if (x !== undefined) params.set(k, x.toString())` — optional
boolean, stringified `"true"`/`"false"`. -/
def optBool (k : String) (v : Option Bool) : List (String × String) :=
  match v with
  | some b => [(k, boolString b)]
  | none => []

/-- `if (x && x.length > 0) params.set(k, x.join(sep))` — array field
emitted only when present and non-empty. -/
def optArrJoinNonempty (k sep : String) (v : Option (List String)) :
    List (String × String) :=
  if optListTruthy v then [(k, jsJoin sep (v.getD []))] else []

/-- `if (x) params.set(k, x.join(sep))` — arrays are always truthy in
JavaScript, so this emits whenever the field is present, even for an
empty array. -/
def optArrJoinPresent (k sep : String) (v : Option (List String)) :
    List (String × String) :=
  match v with
  | some l => [(k, jsJoin sep l)]
  | none => []

lemma qlookup_nil (key : String) : qlookup [] key = none := rfl

lemma qlookup_cons (k v : String) (ps : List (String × String)) (key : String) :
    qlookup ((k, v) :: ps) key = if key = k then some v else qlookup ps key := rfl

lemma qlookup_append (ps qs : List (String × String)) (key : String) :
    qlookup (ps ++ qs) key = (qlookup ps key).or (qlookup qs key) := by
  induction ps with
  | nil => simp [qlookup]
  | cons p ps ih =>
    obtain ⟨k, v⟩ := p
    simp only [List.cons_append, qlookup, ih]
    split_ifs <;> simp [*]

lemma qlookup_ite (c : Prop) [Decidable c] (a b : List (String × String)) (key : String) :
    qlookup (if c then a else b) key =
      if c then qlookup a key else qlookup b key := by
  split_ifs <;> rfl

lemma qlookup_optTruthyStr (k : String) (v : Option String) (key : String) :
    qlookup (optTruthyStr k v) key = if key = k then truthyKeep v else none := by
  unfold optTruthyStr truthyKeep
  cases v with
  | none => simp [optStrTruthy, qlookup]
  | some s => by_cases hs : s = "" <;> simp [optStrTruthy, hs, qlookup]

lemma qlookup_optDefStr (k : String) (v : Option String) (key : String) :
    qlookup (optDefStr k v) key = if key = k then v else none := by
  cases v with
  | none => simp [optDefStr, qlookup]
  | some s => simp [optDefStr, qlookup]

lemma qlookup_optBool (k : String) (v : Option Bool) (key : String) :
    qlookup (optBool k v) key = if key = k then v.map boolString else none := by
  cases v with
  | none => simp [optBool, qlookup]
  | some b => simp [optBool, qlookup]

lemma qlookup_optArrJoinNonempty (k sep : String) (v : Option (List String)) (key : String) :
    qlookup (optArrJoinNonempty k sep v) key =
      if key = k then
        (if optListTruthy v then some (jsJoin sep (v.getD [])) else none)
      else none := by
  unfold optArrJoinNonempty
  split_ifs <;> simp_all [qlookup]

lemma qlookup_optArrJoinPresent (k sep : String) (v : Option (List String)) (key : String) :
    qlookup (optArrJoinPresent k sep v) key =
      if key = k then v.map (jsJoin sep) else none := by
  cases v with
  | none => simp [optArrJoinPresent, qlookup]
  | some l => simp [optArrJoinPresent, qlookup]

/-! ## Tool inputs and query construction -/

/-- Input of the `add-todo` tool (hyphenated parameter names are
camel-cased: `checklist-items` is `checklistItems`, etc.). -/
structure AddTodoParams where
  title : Option String := none
  titles : Option String := none
  notes : Option String := none
  «when» : Option String := none
  deadline : Option String := none
  tags : Option (List String) := none
  checklistItems : Option (List String) := none
  useClipboard : Option String := none
  listId : Option String := none
  list : Option String := none
  headingId : Option String := none
  heading : Option String := none
  completed : Option Bool := none
  canceled : Option Bool := none
  showQuickEntry : Option Bool := none
  reveal : Option Bool := none
  creationDate : Option String := none
  completionDate : Option String := none
deriving DecidableEq, Repr

/-- The query parameters built by the `add-todo` handler. -/
def addTodoQuery (p : AddTodoParams) : List (String × String) :=
  (if optStrTruthy p.titles then [("titles", p.titles.getD "")]
   else if optStrTruthy p.title then [("title", p.title.getD "")]
   else [])
  ++ optTruthyStr "notes" p.notes
  ++ optTruthyStr "when" p.when
  ++ optTruthyStr "deadline" p.deadline
  ++ optArrJoinNonempty "tags" "," p.tags
  ++ optArrJoinNonempty "checklist-items" "\n" p.checklistItems
  ++ optTruthyStr "use-clipboard" p.useClipboard
  ++ optTruthyStr "list-id" p.listId
  ++ optTruthyStr "list" p.list
  ++ optTruthyStr "heading-id" p.headingId
  ++ optTruthyStr "heading" p.heading
  ++ optBool "completed" p.completed
  ++ optBool "canceled" p.canceled
  ++ optBool "show-quick-entry" p.showQuickEntry
  ++ optBool "reveal" p.reveal
  ++ optTruthyStr "creation-date" p.creationDate
  ++ optTruthyStr "completion-date" p.completionDate

/-- The URL opened by the `add-todo` handler. -/
def addTodoUrl (p : AddTodoParams) : String :=
  "things:///add?" ++ String.mk (encodeParams (addTodoQuery p))

/-- Input of the `add-project` tool. -/
structure AddProjectParams where
  title : String
  notes : Option String := none
  «when» : Option String := none
  deadline : Option String := none
  tags : Option (List String) := none
  areaId : Option String := none
  area : Option String := none
  toDos : Option (List String) := none
  completed : Option Bool := none
  canceled : Option Bool := none
  reveal : Option Bool := none
  creationDate : Option String := none
  completionDate : Option String := none
deriving DecidableEq, Repr

/-- The query parameters built by the `add-project` handler. -/
def addProjectQuery (p : AddProjectParams) : List (String × String) :=
  [("title", p.title)]
  ++ optTruthyStr "notes" p.notes
  ++ optTruthyStr "when" p.when
  ++ optTruthyStr "deadline" p.deadline
  ++ optArrJoinNonempty "tags" "," p.tags
  ++ optTruthyStr "area-id" p.areaId
  ++ optTruthyStr "area" p.area
  ++ optArrJoinNonempty "to-dos" "\n" p.toDos
  ++ optBool "completed" p.completed
  ++ optBool "canceled" p.canceled
  ++ optBool "reveal" p.reveal
  ++ optTruthyStr "creation-date" p.creationDate
  ++ optTruthyStr "completion-date" p.completionDate

/-- The URL opened by the `add-project` handler. -/
def addProjectUrl (p : AddProjectParams) : String :=
  "things:///add-project?" ++ String.mk (encodeParams (addProjectQuery p))

/-- Input of the `update` tool. -/
structure UpdateParams where
  id : String
  authToken : Option String := none
  title : Option String := none
  notes : Option String := none
  prependNotes : Option String := none
  appendNotes : Option String := none
  «when» : Option String := none
  deadline : Option String := none
  tags : Option (List String) := none
  addTags : Option (List String) := none
  checklistItems : Option (List String) := none
  prependChecklistItems : Option (List String) := none
  appendChecklistItems : Option (List String) := none
  listId : Option String := none
  list : Option String := none
  headingId : Option String := none
  heading : Option String := none
  completed : Option Bool := none
  canceled : Option Bool := none
  reveal : Option Bool := none
  duplicate : Option Bool := none
  creationDate : Option String := none
  completionDate : Option String := none
deriving DecidableEq, Repr

/-- The query parameters built by the `update` handler once the auth
token has been resolved to `tok`.  Note the `!== undefined` guards on
`notes`, `when` and `deadline` (clearing them is meaningful) and the
unguarded joins of the array fields. -/
def updateQueryList (p : UpdateParams) (tok : String) : List (String × String) :=
  [("id", p.id), ("auth-token", tok)]
  ++ optTruthyStr "title" p.title
  ++ optDefStr "notes" p.notes
  ++ optTruthyStr "prepend-notes" p.prependNotes
  ++ optTruthyStr "append-notes" p.appendNotes
  ++ optDefStr "when" p.when
  ++ optDefStr "deadline" p.deadline
  ++ optArrJoinPresent "tags" "," p.tags
  ++ optArrJoinPresent "add-tags" "," p.addTags
  ++ optArrJoinPresent "checklist-items" "\n" p.checklistItems
  ++ optArrJoinPresent "prepend-checklist-items" "\n" p.prependChecklistItems
  ++ optArrJoinPresent "append-checklist-items" "\n" p.appendChecklistItems
  ++ optTruthyStr "list-id" p.listId
  ++ optTruthyStr "list" p.list
  ++ optTruthyStr "heading-id" p.headingId
  ++ optTruthyStr "heading" p.heading
  ++ optBool "completed" p.completed
  ++ optBool "canceled" p.canceled
  ++ optBool "reveal" p.reveal
  ++ optBool "duplicate" p.duplicate
  ++ optTruthyStr "creation-date" p.creationDate
  ++ optTruthyStr "completion-date" p.completionDate

/-- The `update` handler's query construction: the auth token is
resolved first (throwing if absent), before any URL is built or
opened. -/
def updateQuery (p : UpdateParams) (envToken : Option String) :
    Except String (List (String × String)) :=
  (resolveAuthToken p.authToken envToken).map (updateQueryList p)

/-- The URL opened by the `update` handler (or the error thrown
before any external call). -/
def updateUrl (p : UpdateParams) (envToken : Option String) : Except String String :=
  (updateQuery p envToken).map fun q => "things:///update?" ++ String.mk (encodeParams q)

/-- Input of the `update-project` tool. -/
structure UpdateProjectParams where
  id : String
  authToken : Option String := none
  title : Option String := none
  notes : Option String := none
  prependNotes : Option String := none
  appendNotes : Option String := none
  «when» : Option String := none
  deadline : Option String := none
  tags : Option (List String) := none
  addTags : Option (List String) := none
  areaId : Option String := none
  area : Option String := none
  completed : Option Bool := none
  canceled : Option Bool := none
  reveal : Option Bool := none
  duplicate : Option Bool := none
  creationDate : Option String := none
  completionDate : Option String := none
deriving DecidableEq, Repr

/-- The query parameters built by the `update-project` handler once
the auth token has been resolved to `tok`. -/
def updateProjectQueryList (p : UpdateProjectParams) (tok : String) :
    List (String × String) :=
  [("id", p.id), ("auth-token", tok)]
  ++ optTruthyStr "title" p.title
  ++ optDefStr "notes" p.notes
  ++ optTruthyStr "prepend-notes" p.prependNotes
  ++ optTruthyStr "append-notes" p.appendNotes
  ++ optDefStr "when" p.when
  ++ optDefStr "deadline" p.deadline
  ++ optArrJoinPresent "tags" "," p.tags
  ++ optArrJoinPresent "add-tags" "," p.addTags
  ++ optTruthyStr "area-id" p.areaId
  ++ optTruthyStr "area" p.area
  ++ optBool "completed" p.completed
  ++ optBool "canceled" p.canceled
  ++ optBool "reveal" p.reveal
  ++ optBool "duplicate" p.duplicate
  ++ optTruthyStr "creation-date" p.creationDate
  ++ optTruthyStr "completion-date" p.completionDate

/-- The `update-project` handler's query construction. -/
def updateProjectQuery (p : UpdateProjectParams) (envToken : Option String) :
    Except String (List (String × String)) :=
  (resolveAuthToken p.authToken envToken).map (updateProjectQueryList p)

/-- The URL opened by the `update-project` handler. -/
def updateProjectUrl (p : UpdateProjectParams) (envToken : Option String) :
    Except String String :=
  (updateProjectQuery p envToken).map fun q =>
    "things:///update-project?" ++ String.mk (encodeParams q)

/-- Input of the `show` tool. -/
structure ShowParams where
  id : Option String := none
  query : Option String := none
  filter : Option (List String) := none
deriving DecidableEq, Repr

/-- The query parameters built by the `show` handler. -/
def showQuery (p : ShowParams) : List (String × String) :=
  (if optStrTruthy p.id then [("id", p.id.getD "")]
   else if optStrTruthy p.query then [("query", p.query.getD "")]
   else [])
  ++ optArrJoinNonempty "filter" "," p.filter

/-- The URL opened by the `show` handler. -/
def showUrl (p : ShowParams) : String :=
  "things:///show?" ++ String.mk (encodeParams (showQuery p))

/-- The query parameters built by the `search` handler. -/
def searchQuery (q : Option String) : List (String × String) :=
  optTruthyStr "query" q

/-- The URL opened by the `search` handler. -/
def searchUrl (q : Option String) : String :=
  "things:///search?" ++ String.mk (encodeParams (searchQuery q))

/-! ## JSON serialization of the data payloads

Modelled from the spec: the handlers pass their payload objects to
`JSON.stringify`, whose output lists object keys in insertion order
and escapes strings in the standard JSON way. -/

/-- Lowercase hexadecimal digit for a value below 16. -/
def hexDigitLower (n : Nat) : Char :=
  Char.ofNat (if n < 10 then 48 + n else 87 + n)

/-- JSON string escaping of one character. -/
def jsonEscapeChar (c : Char) : List Char :=
  if c = '"' then ['\\', '"']
  else if c = '\\' then ['\\', '\\']
  else if c.toNat = 8 then ['\\', 'b']
  else if c = '\t' then ['\\', 't']
  else if c = '\n' then ['\\', 'n']
  else if c.toNat = 12 then ['\\', 'f']
  else if c = '\r' then ['\\', 'r']
  else if c.toNat < 32 then
    ['\\', 'u', '0', '0', hexDigitLower (c.toNat / 16), hexDigitLower (c.toNat % 16)]
  else [c]

/-- `JSON.stringify` of a string: quoted and escaped. -/
def jsonQuote (s : String) : String :=
  "\"" ++ String.mk ((s.data.map jsonEscapeChar).flatten) ++ "\""

/-- A JSON array literal from serialized elements. -/
def jsonArray (elts : List String) : String :=
  "[" ++ jsJoin "," elts ++ "]"

/-- An optional string member (preceded by a comma; empty if the
field is absent from the object). -/
def jsonFieldStr (k : String) (v : Option String) : String :=
  match v with
  | some s => "," ++ jsonQuote k ++ ":" ++ jsonQuote s
  | none => ""

/-- An optional boolean member. -/
def jsonFieldBool (k : String) (v : Option Bool) : String :=
  match v with
  | some b => "," ++ jsonQuote k ++ ":" ++ boolString b
  | none => ""

/-- An optional numeric member. -/
def jsonFieldNat (k : String) (v : Option Nat) : String :=
  match v with
  | some n => "," ++ jsonQuote k ++ ":" ++ toString n
  | none => ""

/-- An optional string-array member. -/
def jsonFieldStrList (k : String) (v : Option (List String)) : String :=
  match v with
  | some l => "," ++ jsonQuote k ++ ":" ++ jsonArray (l.map jsonQuote)
  | none => ""

/-- The string of a heading operation name. -/
def hopString : HOp → String
  | .create => "create"
  | .update => "update"
  | .move => "move"
  | .delete => "delete"

/-- JSON of the attributes of a non-delete heading operation
(insertion order: `project-id`, `title?`, `index`). -/
def serializeHeadingAttrs (a : HeadingAttrs) : String :=
  "\x7b" ++ jsonQuote "project-id" ++ ":" ++ jsonQuote a.projectId
    ++ jsonFieldStr "title" a.title
    ++ "," ++ jsonQuote "index" ++ ":" ++ toString a.index ++ "\x7d"

/-- JSON of one restructure operation entry. -/
def serializeOperation : Operation → String
  | .headingOp id op attrs =>
    "\x7b" ++ jsonQuote "type" ++ ":" ++ jsonQuote "heading"
      ++ "," ++ jsonQuote "id" ++ ":" ++ jsonQuote id
      ++ "," ++ jsonQuote "operation" ++ ":" ++ jsonQuote (hopString op)
      ++ (match attrs with
          | some a => "," ++ jsonQuote "attributes" ++ ":" ++ serializeHeadingAttrs a
          | none => "")
      ++ "\x7d"
  | .todoMove id listId headingId index =>
    "\x7b" ++ jsonQuote "type" ++ ":" ++ jsonQuote "to-do"
      ++ "," ++ jsonQuote "id" ++ ":" ++ jsonQuote id
      ++ "," ++ jsonQuote "operation" ++ ":" ++ jsonQuote "move"
      ++ "," ++ jsonQuote "attributes" ++ ":"
      ++ "\x7b" ++ jsonQuote "list-id" ++ ":" ++ jsonQuote listId
      ++ jsonFieldStr "heading-id" headingId
      ++ "," ++ jsonQuote "index" ++ ":" ++ toString index ++ "\x7d\x7d"

/-- JSON of the restructure operations list. -/
def serializeOperations (ops : List Operation) : String :=
  jsonArray (ops.map serializeOperation)

/-- JSON of one checklist entry. -/
def serializeChecklistEntry (e : ChecklistEntry) : String :=
  "\x7b" ++ jsonQuote "type" ++ ":" ++ jsonQuote "checklist-item"
    ++ "," ++ jsonQuote "attributes" ++ ":"
    ++ "\x7b" ++ jsonQuote "title" ++ ":" ++ jsonQuote e.title
    ++ jsonFieldBool "completed" e.completed ++ "\x7d\x7d"

/-- JSON of a to-do's attributes (insertion order of `buildTodo`). -/
def serializeTodoAttrs (a : TodoAttrs) : String :=
  "\x7b" ++ jsonQuote "title" ++ ":" ++ jsonQuote a.title
    ++ jsonFieldStr "notes" a.notes
    ++ jsonFieldStr "when" a.when
    ++ jsonFieldStr "deadline" a.deadline
    ++ jsonFieldStrList "tags" a.tags
    ++ jsonFieldBool "canceled" a.canceled
    ++ jsonFieldBool "completed" a.completed
    ++ jsonFieldStr "area" a.area
    ++ jsonFieldStr "area-id" a.areaId
    ++ jsonFieldStr "heading-id" a.headingId
    ++ jsonFieldStr "list-id" a.listId
    ++ jsonFieldNat "index" a.index ++ "\x7d"

/-- JSON of one to-do entry of the structured payload. -/
def serializeTodoEntry (t : TodoEntry) : String :=
  "\x7b" ++ jsonQuote "type" ++ ":" ++ jsonQuote "to-do"
    ++ "," ++ jsonQuote "attributes" ++ ":" ++ serializeTodoAttrs t.attributes
    ++ (match t.items with
        | some cs =>
          "," ++ jsonQuote "items" ++ ":" ++ jsonArray (cs.map serializeChecklistEntry)
        | none => "")
    ++ "\x7d"

/-- JSON of one item of the structured payload (heading with nested
to-dos, or top-level to-do). -/
def serializeProjectItemEntry : ProjectItemEntry → String
  | .heading a items =>
    "\x7b" ++ jsonQuote "type" ++ ":" ++ jsonQuote "heading"
      ++ "," ++ jsonQuote "attributes" ++ ":"
      ++ "\x7b" ++ jsonQuote "title" ++ ":" ++ jsonQuote a.title
      ++ jsonFieldStr "notes" a.notes
      ++ jsonFieldNat "index" a.index ++ "\x7d"
      ++ (match items with
          | some ts => "," ++ jsonQuote "items" ++ ":" ++ jsonArray (ts.map serializeTodoEntry)
          | none => "")
      ++ "\x7d"
  | .todo t => serializeTodoEntry t

/-- JSON of the project attributes (insertion order of
`buildStructuredProjectPayload`). -/
def serializeProjectAttrs (a : ProjectAttrs) : String :=
  "\x7b" ++ jsonQuote "title" ++ ":" ++ jsonQuote a.title
    ++ jsonFieldStr "notes" a.notes
    ++ jsonFieldStr "when" a.when
    ++ jsonFieldStr "deadline" a.deadline
    ++ jsonFieldStrList "tags" a.tags
    ++ jsonFieldStr "area" a.area
    ++ jsonFieldStr "area-id" a.areaId
    ++ jsonFieldBool "canceled" a.canceled
    ++ jsonFieldBool "completed" a.completed
    ++ jsonFieldNat "index" a.index ++ "\x7d"

/-- JSON of the one-element structured-project payload array. -/
def serializeProjectPayload (payload : List ProjectPayloadEntry) : String :=
  jsonArray (payload.map fun e =>
    "\x7b" ++ jsonQuote "type" ++ ":" ++ jsonQuote "project"
      ++ "," ++ jsonQuote "attributes" ++ ":" ++ serializeProjectAttrs e.attributes
      ++ (match e.items with
          | some its =>
            "," ++ jsonQuote "items" ++ ":" ++ jsonArray (its.map serializeProjectItemEntry)
          | none => "")
      ++ "\x7d")

/-! ## The remaining tools -/

/-- JavaScript nullish coalescing `a ?? b` on optional strings. -/
def jsNullish (a b : Option String) : Option String :=
  match a with
  | some t => some t
  | none => b

/-- The query parameters built by the `create-structured-project`
handler: the auth token falls back to the environment and is emitted
only when truthy; `data` is always set. -/
def createStructuredQuery (project : StructuredProjectInput)
    (authToken envToken : Option String) (reveal : Option Bool) :
    List (String × String) :=
  optTruthyStr "auth-token" (jsNullish authToken envToken)
  ++ [("data", serializeProjectPayload (buildStructuredProjectPayload project))]
  ++ optBool "reveal" reveal

/-- The URL opened by the `create-structured-project` handler. -/
def createStructuredUrl (project : StructuredProjectInput)
    (authToken envToken : Option String) (reveal : Option Bool) : String :=
  "things:///json?" ++
    String.mk (encodeParams (createStructuredQuery project authToken envToken reveal))

/-- The error thrown by `restructure-project` on an empty operations
list. -/
def noOpsMsg : String :=
  "No operations generated from layout. Verify that headings or items are provided."

/-- The `restructure-project` handler's query construction: build the
payload, fail on an empty operations list, then resolve the auth
token (failing before any external call), then assemble the query. -/
def restructureQuery (pid : String) (authToken envToken : Option String)
    (uuid : Nat → String) (layout : List RestructureLayoutItem) :
    Except String (List (String × String)) :=
  let r := buildRestructurePayload pid uuid layout
  if r.operations = [] then Except.error noOpsMsg
  else
    (resolveAuthToken authToken envToken).map fun tok =>
      [("auth-token", tok), ("data", serializeOperations r.operations)]

/-- The URL opened by the `restructure-project` handler. -/
def restructureUrl (pid : String) (authToken envToken : Option String)
    (uuid : Nat → String) (layout : List RestructureLayoutItem) :
    Except String String :=
  (restructureQuery pid authToken envToken uuid layout).map fun q =>
    "things:///json?" ++ String.mk (encodeParams q)

/-- The query parameters built by the `json` handler. -/
def jsonToolQuery (authToken envToken : Option String) (data : String)
    (reveal : Option Bool) : List (String × String) :=
  optTruthyStr "auth-token" (jsNullish authToken envToken)
  ++ [("data", data)]
  ++ optBool "reveal" reveal

/-- The URL opened by the `json` handler. -/
def jsonToolUrl (authToken envToken : Option String) (data : String)
    (reveal : Option Bool) : String :=
  "things:///json?" ++ String.mk (encodeParams (jsonToolQuery authToken envToken data reveal))

/-- The `osascript` binary invoked by the `evaluate` handler. -/
def evaluateBinary : String := "/usr/bin/osascript"

/-- The `evaluate` handler: the zod refinement accepts exactly one of
`id`/`url` (by truthiness), then one `osascript` command line is
assembled with `JSON.stringify`-quoted arguments. -/
def evaluateCommand (scriptPath : String) (id url : Option String) :
    Except String String :=
  if (optStrTruthy id || optStrTruthy url) && !(optStrTruthy id && optStrTruthy url) then
    Except.ok (evaluateBinary ++ " -l JavaScript " ++ jsonQuote scriptPath ++ " " ++
      jsonQuote ((jsNullish id url).getD ""))
  else Except.error "Provide either id or url, but not both"

/-! ## One external call per tool invocation -/

/-- An external call made by a handler: opening a Things URL through
the spawned `open` process, or running the `osascript` interpreter. -/
inductive ExternalCall where
  | openURL (url : String)
  | osascript (command : String)
deriving DecidableEq, Repr

/-- One invocation of any of the server's tools, with the relevant
environment (the `THINGS_AUTH_TOKEN` value, the UUID supply, the
resolved script path) made explicit. -/
inductive ToolInvocation where
  | addTodo (p : AddTodoParams)
  | addProject (p : AddProjectParams)
  | createStructuredProject (project : StructuredProjectInput)
      (authToken envToken : Option String) (reveal : Option Bool)
  | update (p : UpdateParams) (envToken : Option String)
  | updateProject (p : UpdateProjectParams) (envToken : Option String)
  | restructureProject (pid : String) (authToken envToken : Option String)
      (uuid : Nat → String) (layout : List RestructureLayoutItem)
  | showTool (p : ShowParams)
  | search (q : Option String)
  | evaluate (scriptPath : String) (id url : Option String)
  | version
  | jsonTool (authToken envToken : Option String) (data : String) (reveal : Option Bool)

/-- The external calls a tool invocation performs (in order): every
handler either throws before its single call or makes exactly that
one call and returns. -/
def toolCalls : ToolInvocation → List ExternalCall
  | .addTodo p => [.openURL (addTodoUrl p)]
  | .addProject p => [.openURL (addProjectUrl p)]
  | .createStructuredProject project authToken envToken reveal =>
    [.openURL (createStructuredUrl project authToken envToken reveal)]
  | .update p envToken =>
    match updateUrl p envToken with
    | .ok u => [.openURL u]
    | .error _ => []
  | .updateProject p envToken =>
    match updateProjectUrl p envToken with
    | .ok u => [.openURL u]
    | .error _ => []
  | .restructureProject pid authToken envToken uuid layout =>
    match restructureUrl pid authToken envToken uuid layout with
    | .ok u => [.openURL u]
    | .error _ => []
  | .showTool p => [.openURL (showUrl p)]
  | .search q => [.openURL (searchUrl q)]
  | .evaluate scriptPath id url =>
    match evaluateCommand scriptPath id url with
    | .ok c => [.osascript c]
    | .error _ => []
  | .version => [.openURL "things:///version"]
  | .jsonTool authToken envToken data reveal =>
    [.openURL (jsonToolUrl authToken envToken data reveal)]

/-! # Claims -/

/-! ## C1 -/

/-- The structured to-do used in the C1 counterexample. -/
def c1Todo : StructuredTodoInput := { title := "Write report" }

/-- A structured heading with one nested to-do. -/
def c1Items : List StructuredProjectItemInput :=
  [.heading "Phase 1" none none (some [c1Todo])]

/-- C1 counterexample: for a structured-project input the payload is
not flattened — a heading with one to-do yields a single entry (two
tree nodes), the to-do stays nested inside the heading's own `items`,
and the heading entry carries no identifier (generated or
otherwise). -/
theorem c1_counterexample :
    structuredNodeCount c1Items = 2 ∧
    (buildProjectItems c1Items).length = 1 ∧
    buildProjectItems c1Items =
      [ProjectItemEntry.heading { title := "Phase 1", notes := none, index := none }
        (some [buildTodo c1Todo])] := by
  refine ⟨rfl, rfl, rfl⟩

/-- C1 (amended to restructure inputs): the restructure payload is
the flattened form — one ordered list of typed entries, all heading
operations (in layout order, with an identifier generated from the
UUID supply for every heading that lacks one, and with the
`headingIndex` counter supplying the index of every non-delete heading
without an explicit one) followed by all to-do move operations (with
the `todoIndex` counter supplying consecutive indices), together with
the generated-identifier report. -/
theorem c1_flatten (pid : String) (uuid : Nat → String)
    (layout : List RestructureLayoutItem) :
    (buildRestructurePayload pid uuid layout).operations =
      flatHeadingOps pid uuid layout 0 0 ++ flatTodoOps pid uuid layout 0 0 ∧
    (buildRestructurePayload pid uuid layout).createdHeadings =
      flatCreated uuid layout 0 := by
  rw [buildRestructurePayload_eq]
  exact ⟨rfl, rfl⟩

/-! ## C2 -/

/-- The heading used in the C2 counterexample: an id and a title are
both present, but the title is the empty string. -/
def c2Heading : RHeading := { id := some "HEAD-1", title := some "" }

/-- C2 counterexample: for a heading with an id whose present title
is the empty string (and no explicit index or operation), the
resolved operation is `move`, not the `update` the claim requires for
an entry with a title present. -/
theorem c2_counterexample :
    c2Heading.id.isSome ∧ c2Heading.title.isSome ∧
    c2Heading.operation = none ∧ c2Heading.index = none ∧
    resolvedOperation c2Heading = HOp.move ∧ HOp.move ≠ HOp.update := by
  refine ⟨rfl, rfl, rfl, rfl, rfl, by decide⟩

/-- C2 (amended): when no operation is given, a heading whose id is
absent or empty gets `create`; a heading with a non-empty id gets
`update` when a non-empty title or an explicit index is present and
`move` otherwise; the inferred operation is never `delete`; and the
operation emitted in the payload for a single-heading layout is
exactly the resolved one. -/
theorem c2_inference (pid : String) (uuid : Nat → String) (h : RHeading)
    (hop : h.operation = none) :
    resolvedOperation h =
      (if optStrTruthy h.id then
        (if optStrTruthy h.title || h.index.isSome then HOp.update else HOp.move)
      else HOp.create) ∧
    resolvedOperation h ≠ HOp.delete ∧
    (buildRestructurePayload pid uuid [.heading h]).operations =
      Operation.headingOp (h.id.getD (uuid 0)) (resolvedOperation h)
        (some { projectId := pid, title := truthyKeep h.title, index := h.index.getD 0 }) ::
      tStep pid uuid 0 0 h := by
  have h1 : resolvedOperation h =
      (if optStrTruthy h.id then
        (if optStrTruthy h.title || h.index.isSome then HOp.update else HOp.move)
      else HOp.create) := by
    rw [resolvedOperation, hop]
    rfl
  have h2 : resolvedOperation h ≠ HOp.delete := by
    rw [h1]
    split_ifs <;> simp
  refine ⟨h1, h2, ?_⟩
  have := buildRestructurePayload_eq pid uuid [.heading h]
  rw [this]
  show (flatHeadingOps pid uuid [.heading h] 0 0 ++ flatTodoOps pid uuid [.heading h] 0 0) = _
  simp only [flatHeadingOps, flatTodoOps, hStep, List.append_nil]
  rw [if_pos h2]
  simp [tStep]

/-- The heading used in the C2 witness. -/
def c2wHeading : RHeading :=
  { id := some "HEAD-9", title := some "New title", items := some ["td-1"] }

/-- Witness for the C2 theorem at a concrete heading. -/
theorem c2_inference_witness :
    resolvedOperation c2wHeading =
      (if optStrTruthy c2wHeading.id then
        (if optStrTruthy c2wHeading.title || c2wHeading.index.isSome then HOp.update
         else HOp.move)
      else HOp.create) ∧
    resolvedOperation c2wHeading ≠ HOp.delete ∧
    (buildRestructurePayload "PROJ" (fun n => "uuid-" ++ toString n)
        [.heading c2wHeading]).operations =
      Operation.headingOp (c2wHeading.id.getD ("uuid-" ++ toString 0))
        (resolvedOperation c2wHeading)
        (some { projectId := "PROJ", title := truthyKeep c2wHeading.title,
                index := c2wHeading.index.getD 0 }) ::
      tStep "PROJ" (fun n => "uuid-" ++ toString n) 0 0 c2wHeading :=
  c2_inference "PROJ" (fun n => "uuid-" ++ toString n) c2wHeading rfl

/-! ## C3 -/

/-- Helper fact: a to-do move operation is not a heading operation. -/
lemma Operation.isHeading_eq_not_isTodo (op : Operation) : op.isHeading = !op.isTodo := by
  cases op <;> rfl

/-- C3: a restructure layout containing only unsectioned blocks
produces exactly one move operation per listed todo id in layout
order, no heading operations, and a contiguous index sequence
starting at 0. -/
theorem c3_unsectioned (pid : String) (uuid : Nat → String)
    (layout : List RestructureLayoutItem)
    (hu : ∀ it ∈ layout, ∃ its, it = RestructureLayoutItem.unsectioned its) :
    (buildRestructurePayload pid uuid layout).operations =
      moveOps pid none 0 (unsectionedIds layout) ∧
    (buildRestructurePayload pid uuid layout).operations.filter Operation.isHeading = [] ∧
    (buildRestructurePayload pid uuid layout).operations.map Operation.opId =
      unsectionedIds layout ∧
    (buildRestructurePayload pid uuid layout).operations.map Operation.moveIndex =
      List.range (unsectionedIds layout).length := by
  have hmain : (buildRestructurePayload pid uuid layout).operations =
      moveOps pid none 0 (unsectionedIds layout) := by
    rw [buildRestructurePayload_eq]
    show flatHeadingOps pid uuid layout 0 0 ++ flatTodoOps pid uuid layout 0 0 = _
    rw [flatHeadingOps_unsectioned pid uuid layout hu 0 0,
      flatTodoOps_unsectioned pid uuid layout hu 0 0, List.nil_append]
  refine ⟨hmain, ?_, ?_, ?_⟩
  · rw [hmain, List.filter_eq_nil_iff]
    intro op hop
    have := moveOps_all_isTodo pid none 0 (unsectionedIds layout) op hop
    simp [Operation.isHeading_eq_not_isTodo, this]
  · rw [hmain, moveOps_map_opId]
  · rw [hmain, moveOps_map_moveIndex, List.range_eq_range']

/-- The layout used in the C3 witness. -/
def c3Layout : List RestructureLayoutItem :=
  [.unsectioned (some ["todo-a", "todo-b"]), .unsectioned none, .unsectioned (some ["todo-c"])]

/-- Witness for the C3 theorem at a concrete all-unsectioned layout. -/
theorem c3_unsectioned_witness :
    (buildRestructurePayload "PROJ" (fun n => "uuid-" ++ toString n) c3Layout).operations =
      moveOps "PROJ" none 0 (unsectionedIds c3Layout) ∧
    (buildRestructurePayload "PROJ" (fun n => "uuid-" ++ toString n)
      c3Layout).operations.filter Operation.isHeading = [] ∧
    (buildRestructurePayload "PROJ" (fun n => "uuid-" ++ toString n)
      c3Layout).operations.map Operation.opId = unsectionedIds c3Layout ∧
    (buildRestructurePayload "PROJ" (fun n => "uuid-" ++ toString n)
      c3Layout).operations.map Operation.moveIndex =
      List.range (unsectionedIds c3Layout).length :=
  c3_unsectioned "PROJ" (fun n => "uuid-" ++ toString n) c3Layout (by
    intro it hit
    fin_cases hit <;> exact ⟨_, rfl⟩)

/-! ## C9 -/

/-- C9: in every produced operations list, all heading operations
precede all to-do move operations (the list is the filter of one kind
followed by the filter of the other, however headings and unsectioned
blocks are interleaved in the layout), and the to-do move operations
carry one single shared index sequence `0, 1, 2, ...` across all
blocks. -/
theorem c9_ordering (pid : String) (uuid : Nat → String)
    (layout : List RestructureLayoutItem) :
    (buildRestructurePayload pid uuid layout).operations =
      (buildRestructurePayload pid uuid layout).operations.filter Operation.isHeading ++
        (buildRestructurePayload pid uuid layout).operations.filter Operation.isTodo ∧
    ((buildRestructurePayload pid uuid layout).operations.filter Operation.isTodo).map
        Operation.moveIndex =
      List.range
        ((buildRestructurePayload pid uuid layout).operations.filter
          Operation.isTodo).length := by
  have hops : (buildRestructurePayload pid uuid layout).operations =
      flatHeadingOps pid uuid layout 0 0 ++ flatTodoOps pid uuid layout 0 0 := by
    rw [buildRestructurePayload_eq]
  have hH := flatHeadingOps_all_isHeading pid uuid layout 0 0
  have hT := flatTodoOps_all_isTodo pid uuid layout 0 0
  have hfh : (buildRestructurePayload pid uuid layout).operations.filter Operation.isHeading =
      flatHeadingOps pid uuid layout 0 0 := by
    rw [hops, List.filter_append]
    rw [List.filter_eq_self.mpr hH, List.filter_eq_nil_iff.mpr
      (fun op hop => by simp [Operation.isHeading_eq_not_isTodo, hT op hop]),
      List.append_nil]
  have hft : (buildRestructurePayload pid uuid layout).operations.filter Operation.isTodo =
      flatTodoOps pid uuid layout 0 0 := by
    rw [hops, List.filter_append]
    rw [List.filter_eq_self.mpr hT, List.filter_eq_nil_iff.mpr
      (fun op hop => by
        have := hH op hop
        rw [Operation.isHeading_eq_not_isTodo] at this
        simp_all), List.nil_append]
  refine ⟨?_, ?_⟩
  · rw [hfh, hft, hops]
  · rw [hft, flatTodoOps_map_moveIndex, flatTodoOps_length, List.range_eq_range']

/-! ## C10 -/

/-- C10: a heading block with operation `delete` but no id emits no
operation at all — neither a heading operation nor any move operation
for the todo ids listed under it — and leaves every accumulator
except the consumed UUID unchanged; a layout consisting of such a
block produces an empty payload. -/
theorem c10_delete_no_id (h : RHeading)
    (hdel : h.operation = some HOp.delete) (hid : h.id = none) :
    (∀ (pid : String) (uuid : Nat → String) (s : RState),
      processItem pid uuid s (.heading h) = { s with fresh := s.fresh + 1 }) ∧
    (∀ (pid : String) (uuid : Nat → String),
      buildRestructurePayload pid uuid [.heading h] =
        { operations := [], createdHeadings := [] }) := by
  have hres : resolvedOperation h = HOp.delete := by
    rw [resolvedOperation, hdel]
    rfl
  have htruthy : optStrTruthy h.id = false := by
    rw [hid]
    rfl
  constructor
  · intro pid uuid s
    rw [processItem, processHeading_eq]
    have h1 : hStep pid uuid s.hIdx s.fresh h = [] := by
      rw [hStep]
      simp [hres, htruthy]
    have h2 : tStep pid uuid s.tIdx s.fresh h = [] := by
      rw [tStep]
      simp [hres, optStrTruthy]
    have h3 : tCountH uuid s.fresh h = 0 := by
      rw [tCountH]
      simp [hres, optStrTruthy]
    have h4 : cStep uuid s.fresh h = [] := by
      rw [cStep]
      simp [hres]
    have h5 : hInc h = 0 := by
      rw [hInc]
      simp [hres]
    have h6 : fInc h = 1 := by
      rw [fInc, hid]
      rfl
    rw [h1, h2, h3, h4, h5, h6]
    simp
  · intro pid uuid
    rw [buildRestructurePayload_eq]
    have h1 : hStep pid uuid 0 0 h = [] := by
      rw [hStep]
      simp [hres, htruthy]
    have h2 : tStep pid uuid 0 0 h = [] := by
      rw [tStep]
      simp [hres, optStrTruthy]
    have h4 : cStep uuid 0 h = [] := by
      rw [cStep]
      simp [hres]
    simp [flatHeadingOps, flatTodoOps, flatCreated, h1, h2, h4]

/-- The heading used in the C10 witness: an explicit delete without
an id, with todo ids listed under it. -/
def c10Heading : RHeading :=
  { operation := some HOp.delete, items := some ["todo-1", "todo-2"] }

/-- Witness for the C10 theorem at a concrete heading and state. -/
theorem c10_delete_no_id_witness :
    processItem "PROJ" (fun n => "uuid-" ++ toString n) {} (.heading c10Heading) =
      { ({} : RState) with fresh := ({} : RState).fresh + 1 } ∧
    buildRestructurePayload "PROJ" (fun n => "uuid-" ++ toString n) [.heading c10Heading] =
      { operations := [], createdHeadings := [] } :=
  ⟨(c10_delete_no_id c10Heading rfl rfl).1 "PROJ" (fun n => "uuid-" ++ toString n) {},
   (c10_delete_no_id c10Heading rfl rfl).2 "PROJ" (fun n => "uuid-" ++ toString n)⟩

/-! ## C4 -/

/-- C4 counterexample: the explicit parameter is present (a blank,
non-empty string) yet the resolved token is the environment one, and
with no environment token a present-but-blank parameter still fails —
so "the parameter is used when present" is wrong: the code requires
it to be non-blank. -/
theorem c4_counterexample :
    (some "   " : Option String).isSome ∧
    resolveAuthToken (some "   ") (some "ENV-TOKEN") = Except.ok "ENV-TOKEN" ∧
    ("ENV-TOKEN" : String) ≠ "   " ∧
    resolveAuthToken (some "   ") none = Except.error authRequiredMsg := by
  refine ⟨rfl, ?_, by decide, ?_⟩
  · rw [resolveAuthToken, if_neg (by decide), if_pos (by decide)]
    rfl
  · rw [resolveAuthToken, if_neg (by decide), if_neg (by decide)]

/-- C4 (amended): the update-class tools use the explicit `auth-token`
parameter when it is present and non-blank, else the
`THINGS_AUTH_TOKEN` environment value when present and non-blank; when
neither is usable, `update`, `update-project` and (given a non-empty
operations list) `restructure-project` fail with the "token required"
error and perform no external call. -/
theorem c4_token_resolution (paramTok envTok : Option String)
    (p : UpdateParams) (pp : UpdateProjectParams) (pid : String)
    (authTok : Option String) (uuid : Nat → String)
    (layout : List RestructureLayoutItem) :
    (tokenUsable paramTok = true →
      resolveAuthToken paramTok envTok = Except.ok (paramTok.getD "")) ∧
    (tokenUsable paramTok = false → tokenUsable envTok = true →
      resolveAuthToken paramTok envTok = Except.ok (envTok.getD "")) ∧
    (tokenUsable paramTok = false → tokenUsable envTok = false →
      resolveAuthToken paramTok envTok = Except.error authRequiredMsg) ∧
    (tokenUsable p.authToken = false → tokenUsable envTok = false →
      updateUrl p envTok = Except.error authRequiredMsg ∧
      toolCalls (.update p envTok) = []) ∧
    (tokenUsable pp.authToken = false → tokenUsable envTok = false →
      updateProjectUrl pp envTok = Except.error authRequiredMsg ∧
      toolCalls (.updateProject pp envTok) = []) ∧
    (tokenUsable authTok = false → tokenUsable envTok = false →
      (buildRestructurePayload pid uuid layout).operations ≠ [] →
      restructureUrl pid authTok envTok uuid layout = Except.error authRequiredMsg ∧
      toolCalls (.restructureProject pid authTok envTok uuid layout) = []) := by
  refine ⟨?_, ?_, ?_, ?_, ?_, ?_⟩
  · intro hp
    rw [resolveAuthToken, if_pos hp]
  · intro hp he
    rw [resolveAuthToken, if_neg (by simp [hp]), if_pos he]
  · intro hp he
    rw [resolveAuthToken, if_neg (by simp [hp]), if_neg (by simp [he])]
  · intro hp he
    have hres : resolveAuthToken p.authToken envTok = Except.error authRequiredMsg := by
      rw [resolveAuthToken, if_neg (by simp [hp]), if_neg (by simp [he])]
    have hurl : updateUrl p envTok = Except.error authRequiredMsg := by
      rw [updateUrl, updateQuery, hres]
      rfl
    exact ⟨hurl, by rw [toolCalls, hurl]⟩
  · intro hp he
    have hres : resolveAuthToken pp.authToken envTok = Except.error authRequiredMsg := by
      rw [resolveAuthToken, if_neg (by simp [hp]), if_neg (by simp [he])]
    have hurl : updateProjectUrl pp envTok = Except.error authRequiredMsg := by
      rw [updateProjectUrl, updateProjectQuery, hres]
      rfl
    exact ⟨hurl, by rw [toolCalls, hurl]⟩
  · intro hp he hops
    have hres : resolveAuthToken authTok envTok = Except.error authRequiredMsg := by
      rw [resolveAuthToken, if_neg (by simp [hp]), if_neg (by simp [he])]
    have hurl : restructureUrl pid authTok envTok uuid layout =
        Except.error authRequiredMsg := by
      rw [restructureUrl, restructureQuery]
      simp only [if_neg hops, hres]
      rfl
    exact ⟨hurl, by rw [toolCalls, hurl]⟩

/-- Witness for the C4 theorem: with no parameter and no environment
token, the `update` tool fails with the token-required error and
performs no external call. -/
theorem c4_token_resolution_witness :
    updateUrl { id := "TODO-1" } none = Except.error authRequiredMsg ∧
    toolCalls (.update { id := "TODO-1" } none) = [] :=
  (c4_token_resolution none none { id := "TODO-1" } { id := "PROJ-1" } "PROJ" none
    (fun n => "uuid-" ++ toString n) []).2.2.2.1 rfl rfl

/-! ## C5 -/

/-- C5 counterexample: two falsy-but-present optional fields that are
not omitted — `completed: false` in `add-todo` is emitted as
`completed=false`, and an empty-string `notes` in `update` is emitted
as an empty `notes` value. -/
theorem c5_counterexample :
    ({ completed := some false } : AddTodoParams).completed.isSome ∧
    qlookup (addTodoQuery { completed := some false }) "completed" = some "false" ∧
    ({ id := "TODO-1", notes := some "" } : UpdateParams).notes.isSome ∧
    qlookup (updateQueryList { id := "TODO-1", notes := some "" } "tok") "notes" =
      some "" := by
  refine ⟨rfl, by decide, rfl, by decide⟩

/-- C5 (amended): characterization of every key of the `add-todo` and
`update` query sets.  Absent optional fields are always omitted; in
`add-todo`, falsy present fields (empty strings, empty arrays) are
omitted too; but boolean `false` values are emitted as `"false"`, and
in `update` the fields where clearing is meaningful (`notes`, `when`,
`deadline`) and all array fields are emitted whenever present, even
when empty. -/
theorem c5_omission (p : AddTodoParams) (u : UpdateParams) (tok : String) :
    qlookup (addTodoQuery p) "titles" = truthyKeep p.titles ∧
    qlookup (addTodoQuery p) "title" =
      (if optStrTruthy p.titles then none else truthyKeep p.title) ∧
    qlookup (addTodoQuery p) "notes" = truthyKeep p.notes ∧
    qlookup (addTodoQuery p) "when" = truthyKeep p.when ∧
    qlookup (addTodoQuery p) "deadline" = truthyKeep p.deadline ∧
    qlookup (addTodoQuery p) "tags" =
      (if optListTruthy p.tags then some (jsJoin "," (p.tags.getD [])) else none) ∧
    qlookup (addTodoQuery p) "checklist-items" =
      (if optListTruthy p.checklistItems then
        some (jsJoin "\n" (p.checklistItems.getD [])) else none) ∧
    qlookup (addTodoQuery p) "use-clipboard" = truthyKeep p.useClipboard ∧
    qlookup (addTodoQuery p) "list-id" = truthyKeep p.listId ∧
    qlookup (addTodoQuery p) "list" = truthyKeep p.list ∧
    qlookup (addTodoQuery p) "heading-id" = truthyKeep p.headingId ∧
    qlookup (addTodoQuery p) "heading" = truthyKeep p.heading ∧
    qlookup (addTodoQuery p) "completed" = p.completed.map boolString ∧
    qlookup (addTodoQuery p) "canceled" = p.canceled.map boolString ∧
    qlookup (addTodoQuery p) "show-quick-entry" = p.showQuickEntry.map boolString ∧
    qlookup (addTodoQuery p) "reveal" = p.reveal.map boolString ∧
    qlookup (addTodoQuery p) "creation-date" = truthyKeep p.creationDate ∧
    qlookup (addTodoQuery p) "completion-date" = truthyKeep p.completionDate ∧
    qlookup (updateQueryList u tok) "id" = some u.id ∧
    qlookup (updateQueryList u tok) "auth-token" = some tok ∧
    qlookup (updateQueryList u tok) "title" = truthyKeep u.title ∧
    qlookup (updateQueryList u tok) "notes" = u.notes ∧
    qlookup (updateQueryList u tok) "prepend-notes" = truthyKeep u.prependNotes ∧
    qlookup (updateQueryList u tok) "append-notes" = truthyKeep u.appendNotes ∧
    qlookup (updateQueryList u tok) "when" = u.when ∧
    qlookup (updateQueryList u tok) "deadline" = u.deadline ∧
    qlookup (updateQueryList u tok) "tags" = u.tags.map (jsJoin ",") ∧
    qlookup (updateQueryList u tok) "add-tags" = u.addTags.map (jsJoin ",") ∧
    qlookup (updateQueryList u tok) "checklist-items" =
      u.checklistItems.map (jsJoin "\n") ∧
    qlookup (updateQueryList u tok) "prepend-checklist-items" =
      u.prependChecklistItems.map (jsJoin "\n") ∧
    qlookup (updateQueryList u tok) "append-checklist-items" =
      u.appendChecklistItems.map (jsJoin "\n") ∧
    qlookup (updateQueryList u tok) "list-id" = truthyKeep u.listId ∧
    qlookup (updateQueryList u tok) "list" = truthyKeep u.list ∧
    qlookup (updateQueryList u tok) "heading-id" = truthyKeep u.headingId ∧
    qlookup (updateQueryList u tok) "heading" = truthyKeep u.heading ∧
    qlookup (updateQueryList u tok) "completed" = u.completed.map boolString ∧
    qlookup (updateQueryList u tok) "canceled" = u.canceled.map boolString ∧
    qlookup (updateQueryList u tok) "reveal" = u.reveal.map boolString ∧
    qlookup (updateQueryList u tok) "duplicate" = u.duplicate.map boolString ∧
    qlookup (updateQueryList u tok) "creation-date" = truthyKeep u.creationDate ∧
    qlookup (updateQueryList u tok) "completion-date" = truthyKeep u.completionDate := by
  and_intros <;>
  · simp only [addTodoQuery, updateQueryList, qlookup_append, qlookup_ite,
      qlookup_optTruthyStr, qlookup_optDefStr, qlookup_optBool,
      qlookup_optArrJoinNonempty, qlookup_optArrJoinPresent, qlookup_nil, qlookup_cons]
    simp [Option.or_none, truthyKeep]
    try (split_ifs <;> first
      | rfl
      | (exact some_getD_of_truthy _ (by assumption))
      | simp_all)

/-! ## C6 -/

/-- C6: in the constructed query sets, tag-like arrays are joined
with `","`, multi-line lists (checklist items, to-dos) are joined with
`"\n"`, booleans are stringified `"true"`/`"false"`, and the URL
carries the standard form-urlencoding of the parameter set — an
encoding that decodes back to exactly the constructed parameters. -/
theorem c6_serialization (p : AddTodoParams) (u : UpdateParams) (ap : AddProjectParams)
    (tok : String) (ts cl td : List String) (b : Bool)
    (h1 : p.tags = some ts) (h2 : ts ≠ [])
    (h3 : p.checklistItems = some cl) (h4 : cl ≠ [])
    (h5 : p.completed = some b)
    (h6 : u.tags = some ts)
    (h7 : u.checklistItems = some cl)
    (h8 : ap.toDos = some td) (h9 : td ≠ []) :
    qlookup (addTodoQuery p) "tags" = some (jsJoin "," ts) ∧
    qlookup (addTodoQuery p) "checklist-items" = some (jsJoin "\n" cl) ∧
    qlookup (addTodoQuery p) "completed" = some (if b then "true" else "false") ∧
    qlookup (updateQueryList u tok) "tags" = some (jsJoin "," ts) ∧
    qlookup (updateQueryList u tok) "checklist-items" = some (jsJoin "\n" cl) ∧
    qlookup (addProjectQuery ap) "to-dos" = some (jsJoin "\n" td) ∧
    addTodoUrl p = "things:///add?" ++ String.mk (encodeParams (addTodoQuery p)) ∧
    decodeParams (encodeParams (addTodoQuery p)) = addTodoQuery p ∧
    decodeParams (encodeParams (addProjectQuery ap)) = addProjectQuery ap := by
  refine ⟨?_, ?_, ?_, ?_, ?_, ?_, rfl, decodeParams_encodeParams _,
    decodeParams_encodeParams _⟩ <;>
  · simp only [addTodoQuery, updateQueryList, addProjectQuery, qlookup_append,
      qlookup_ite, qlookup_optTruthyStr, qlookup_optDefStr, qlookup_optBool,
      qlookup_optArrJoinNonempty, qlookup_optArrJoinPresent, qlookup_nil, qlookup_cons]
    simp [Option.or_none, h1, h2, h3, h4, h5, h6, h7, h8, h9, optListTruthy, boolString]

/-- The `add-todo` input used in the C6 witness. -/
def c6AddTodo : AddTodoParams :=
  { title := some "Test Todo", tags := some ["work", "urgent", "follow-up"],
    checklistItems := some ["Buy milk", "Call dentist"], completed := some true }

/-- The `update` input used in the C6 witness. -/
def c6Update : UpdateParams :=
  { id := "TODO-1", tags := some ["work", "urgent", "follow-up"],
    checklistItems := some ["Buy milk", "Call dentist"] }

/-- The `add-project` input used in the C6 witness. -/
def c6AddProject : AddProjectParams :=
  { title := "Test Project", toDos := some ["Buy milk", "Call dentist"] }

/-- Witness for the C6 theorem at concrete inputs. -/
theorem c6_serialization_witness :
    qlookup (addTodoQuery c6AddTodo) "tags" =
      some (jsJoin "," ["work", "urgent", "follow-up"]) ∧
    qlookup (addTodoQuery c6AddTodo) "checklist-items" =
      some (jsJoin "\n" ["Buy milk", "Call dentist"]) ∧
    qlookup (addTodoQuery c6AddTodo) "completed" =
      some (if true then "true" else "false") ∧
    qlookup (updateQueryList c6Update "tok-1") "tags" =
      some (jsJoin "," ["work", "urgent", "follow-up"]) ∧
    qlookup (updateQueryList c6Update "tok-1") "checklist-items" =
      some (jsJoin "\n" ["Buy milk", "Call dentist"]) ∧
    qlookup (addProjectQuery c6AddProject) "to-dos" =
      some (jsJoin "\n" ["Buy milk", "Call dentist"]) ∧
    addTodoUrl c6AddTodo =
      "things:///add?" ++ String.mk (encodeParams (addTodoQuery c6AddTodo)) ∧
    decodeParams (encodeParams (addTodoQuery c6AddTodo)) = addTodoQuery c6AddTodo ∧
    decodeParams (encodeParams (addProjectQuery c6AddProject)) =
      addProjectQuery c6AddProject :=
  c6_serialization c6AddTodo c6Update c6AddProject "tok-1"
    ["work", "urgent", "follow-up"] ["Buy milk", "Call dentist"]
    ["Buy milk", "Call dentist"] true
    rfl (by decide) rfl (by decide) rfl rfl rfl rfl (by decide)

/-! ## C7 -/

/-- C7 counterexample: a tag whose name contains the delimiter does
not survive the join/split round trip — joining `["a,b"]` with `","`
and splitting again yields `["a", "b"]`. -/
theorem c7_counterexample :
    jsJoin "," ["a,b"] = "a,b" ∧
    (splitSep ',' (jsJoin "," ["a,b"]).data).map String.mk = ["a", "b"] ∧
    (["a", "b"] : List String) ≠ ["a,b"] := by
  refine ⟨rfl, by decide, by decide⟩

/-- C7 (amended): encoding a parameter set into a query string and
decoding it back yields the original field values for every parameter
set; and a non-empty tag or list array whose elements do not contain
the delimiter joins deterministically and splits back to the same
ordered list. -/
theorem c7_roundtrip (ps : List (String × String)) (sep : Char) (l : List String)
    (hne : l ≠ []) (hfree : ∀ s ∈ l, sep ∉ s.data) :
    decodeParams (encodeParams ps) = ps ∧
    (splitSep sep (jsJoin (String.mk [sep]) l).data).map String.mk = l := by
  refine ⟨decodeParams_encodeParams ps, ?_⟩
  rw [jsJoin_data]
  have hdata : (String.mk [sep]).data = [sep] := rfl
  rw [hdata, splitSep_charJoin sep (l.map String.data)
    (by simpa using hne)
    (fun x hx => by
      obtain ⟨s, hs, rfl⟩ := List.mem_map.mp hx
      exact hfree s hs)]
  rw [List.map_map]
  have : (String.mk ∘ String.data) = id := by
    funext s
    rfl
  rw [this, List.map_id]

/-- Witness for the C7 theorem at concrete inputs. -/
theorem c7_roundtrip_witness :
    decodeParams (encodeParams
      [("title", "Test \"with\" quotes"), ("notes", "Line 1\nLine 2")]) =
      [("title", "Test \"with\" quotes"), ("notes", "Line 1\nLine 2")] ∧
    (splitSep ',' (jsJoin (String.mk [',']) ["work", "urgent", "follow-up"]).data).map
        String.mk = ["work", "urgent", "follow-up"] :=
  c7_roundtrip [("title", "Test \"with\" quotes"), ("notes", "Line 1\nLine 2")] ','
    ["work", "urgent", "follow-up"] (by decide) (by decide)

/-! ## C8 -/

/-- C8: every tool invocation performs at most one external call (one
`open` of a Things URL, or one `osascript` run for `evaluate`) and
then returns. -/
theorem c8_at_most_one_call (inv : ToolInvocation) : (toolCalls inv).length ≤ 1 := by
  cases inv with
  | update p envToken =>
    rw [toolCalls]
    cases updateUrl p envToken <;> simp
  | updateProject p envToken =>
    rw [toolCalls]
    cases updateProjectUrl p envToken <;> simp
  | restructureProject pid authToken envToken uuid layout =>
    rw [toolCalls]
    cases restructureUrl pid authToken envToken uuid layout <;> simp
  | evaluate scriptPath id url =>
    rw [toolCalls]
    cases evaluateCommand scriptPath id url <;> simp
  | addTodo p => exact Nat.le_refl 1
  | addProject p => exact Nat.le_refl 1
  | createStructuredProject project authToken envToken reveal => exact Nat.le_refl 1
  | showTool p => exact Nat.le_refl 1
  | search q => exact Nat.le_refl 1
  | version => exact Nat.le_refl 1
  | jsonTool authToken envToken data reveal => exact Nat.le_refl 1

end ThingsMCP
